import Mathlib

/-!
# Verification of the lazy-third-party audit (Attribution & Facade-Opportunity engine)

Shallow embedding of `lighthouse-core/audits/lazy-third-party.js`:
the two-pass attribution algorithm `getFacadableProductSummaries` and the
aggregation/ranking part of `audit`.

Modelling choices:
* JavaScript timing numbers are modelled by `JsNum` (a rational value, `+Infinity`,
  or `NaN`). `NaN` also stands for a missing/`undefined` timing field, because the
  only operations the audit applies to timing values are `<` and `Math.min`, and in
  JavaScript `undefined` behaves exactly like `NaN` under both (`undefined < x` is
  `false`; `Math.min(x, undefined)` is `NaN`).
* Transfer sizes and blocking times are rationals.
* A JavaScript `Map` is modelled by an association list with JS `Map` semantics:
  `Map.set` overwrites in place (keeping the original insertion position) or
  appends a new key at the end; iteration order is insertion order.
* The entity/product/facade classification (`third-party-web`, declared an opaque
  external service by the specification) is a parameter `Classifier`; the page's
  main entity is folded into its `isFirstParty` field, as the audit only ever calls
  `isFirstParty(url, mainEntity)` with the fixed main entity.
* The per-URL cost summarizer (`third-party-summary.js`) is external: its output
  `byURL` map is the input of the embedded functions, exactly as it is the input
  of `getFacadableProductSummaries` in the source.
-/

/-- JavaScript number as used by the audit's timing arithmetic: a finite value,
`+Infinity` (the initializer of `cutoffTime`), or `NaN` (which also models a
missing/`undefined` timing field, since `<` and `Math.min` treat them alike). -/
inductive JsNum where
  | nan : JsNum
  | inf : JsNum
  | val (q : ℚ) : JsNum
deriving DecidableEq, Repr

namespace JsNum

/-- JavaScript `<` on timing values: any comparison involving `NaN` (or
`undefined`) is `false`; `Infinity < Infinity` is `false`. -/
def jsLt : JsNum → JsNum → Bool
  | nan, _ => false
  | _, nan => false
  | inf, _ => false
  | val _, inf => true
  | val a, val b => decide (a < b)

/-- JavaScript `<=` on timing values: any comparison involving `NaN` is `false`. -/
def jsLe : JsNum → JsNum → Bool
  | nan, _ => false
  | _, nan => false
  | _, inf => true
  | inf, val _ => false
  | val a, val b => decide (a ≤ b)

/-- JavaScript `Math.min` restricted to two arguments: `NaN` is absorbing,
`Infinity` is the identity. -/
def jsMin : JsNum → JsNum → JsNum
  | nan, _ => nan
  | _, nan => nan
  | inf, b => b
  | a, inf => a
  | val a, val b => val (min a b)

end JsNum

open JsNum

/-- A facade alternative for a product (`IFacade` of third-party-web). -/
structure Facade where
  name : String
  repo : String
deriving DecidableEq, Repr

/-- A third-party product (`IProduct` of third-party-web). An absent/`undefined`
`facades` array behaves exactly like an empty one in the audit (both guards test
`product.facades && product.facades.length`), so it is modelled as a list. -/
structure Product where
  name : String
  facades : List Facade
deriving DecidableEq, Repr

/-- A third-party entity (`IEntity` of third-party-web); the audit only reads its
`name`. -/
structure Entity where
  name : String
deriving DecidableEq, Repr

/-- One per-URL cost record (`ThirdPartySummary.Summary`). The summarizer that
produces it is external to this audit; the field `firstEndTime` holds the
first response's headers-received timestamp (the repository's test
"uses receiveHeadersEnd as cutoff" pins this down). Timing fields are `JsNum`
so that a missing/`undefined` field (`JsNum.nan`) can be expressed. -/
structure Summary where
  transferSize : ℚ
  blockingTime : ℚ
  mainThreadTime : ℚ
  firstStartTime : JsNum
  firstEndTime : JsNum
deriving DecidableEq, Repr

/-- Modelled from the spec: the specification's `UrlCostRecord` field
`firstHeadersReceivedTime` is the summarizer's `firstEndTime` field. The
summarizer (`third-party-summary.js`) is not among the provided sources; the
spec (§3, glossary "Cutoff time") and the repository test
"uses receiveHeadersEnd as cutoff" identify the two. -/
def Summary.firstHeadersReceivedTime (s : Summary) : JsNum :=
  s.firstEndTime

/-- The classification lookup (`third-party-web`), an external read-only service.
`isFirstParty` already carries the page's main entity. -/
structure Classifier where
  getEntity : String → Option Entity
  getProduct : String → Option Product
  isFirstParty : String → Bool

/-- `FacadableProductSummary` of the source: one attribution set. -/
structure FacadableProductSummary where
  product : Product
  cutoffTime : JsNum
  urlSummaries : List (String × Summary)
deriving DecidableEq, Repr

/-- JS `Map.prototype.get`: the value at the key, if present. -/
def mapGet? {α : Type} : List (String × α) → String → Option α
  | [], _ => none
  | (k', v') :: rest, k => if k' = k then some v' else mapGet? rest k

/-- JS `Map.prototype.set`: overwrite in place if the key is present (keeping its
insertion position), otherwise append the new entry at the end. -/
def mapSet {α : Type} : List (String × α) → String → α → List (String × α)
  | [], k, v => [(k, v)]
  | (k', v') :: rest, k, v =>
      if k' = k then (k', v) :: rest else (k', v') :: mapSet rest k v

/-- The nested grouping state: entity name ↦ (product name ↦ attribution set). -/
abbrev EntitySummaries := List (String × List (String × FacadableProductSummary))

/-- One iteration of Pass 1 of `getFacadableProductSummaries` (source lines
81–106): seed the product's attribution set from a product-with-facade record,
updating `cutoffTime = Math.min(cutoffTime, urlSummary.firstEndTime)`. -/
def pass1Step (cls : Classifier) (es : EntitySummaries) (r : String × Summary) :
    EntitySummaries :=
  match cls.getEntity r.1 with
  | none => es
  | some entity =>
    if cls.isFirstParty r.1 then es else
    let productSummaries := (mapGet? es entity.name).getD []
    let productSummaries :=
      match cls.getProduct r.1 with
      | some product =>
          if product.facades.isEmpty then productSummaries else
          let ps := (mapGet? productSummaries product.name).getD
            ⟨product, JsNum.inf, []⟩
          let ps : FacadableProductSummary :=
            { ps with
              urlSummaries := mapSet ps.urlSummaries r.1 r.2,
              cutoffTime := jsMin ps.cutoffTime r.2.firstEndTime }
          mapSet productSummaries product.name ps
      | none => productSummaries
    mapSet es entity.name productSummaries

/-- Pass 2's conditional member insertion into one set (source lines 118–119):
`if (urlSummary.firstStartTime < productSummary.cutoffTime) continue;
productSummary.urlSummaries.set(url, urlSummary);`. -/
def incAdd (ps : FacadableProductSummary) (r : String × Summary) :
    FacadableProductSummary :=
  if jsLt r.2.firstStartTime ps.cutoffTime then ps
  else { ps with urlSummaries := mapSet ps.urlSummaries r.1 r.2 }

/-- One iteration of Pass 2 of `getFacadableProductSummaries` (source lines
108–123): a record whose own product is absent or facade-less is conditionally
added (`incAdd`) to every one of its entity's attribution sets. -/
def pass2Step (cls : Classifier) (es : EntitySummaries) (r : String × Summary) :
    EntitySummaries :=
  match cls.getEntity r.1 with
  | none => es
  | some entity =>
    if cls.isFirstParty r.1 then es else
    let productSummaries := (mapGet? es entity.name).getD []
    let productSummaries :=
      match cls.getProduct r.1 with
      | some product =>
          if product.facades.isEmpty then
            productSummaries.map (fun e => (e.1, incAdd e.2 r))
          else productSummaries
      | none =>
          productSummaries.map (fun e => (e.1, incAdd e.2 r))
    mapSet es entity.name productSummaries

/-- The nested state after Pass 1. -/
def pass1 (cls : Classifier) (byURL : List (String × Summary)) : EntitySummaries :=
  byURL.foldl (pass1Step cls) []

/-- The nested state after both passes. -/
def pass2 (cls : Classifier) (byURL : List (String × Summary)) : EntitySummaries :=
  byURL.foldl (pass2Step cls) (pass1 cls byURL)

/-- `LazyThirdParty.getFacadableProductSummaries`: the two passes followed by
flattening the nested entity → product map in iteration order (source lines
125–131). -/
def getFacadableProductSummaries (cls : Classifier)
    (byURL : List (String × Summary)) : List FacadableProductSummary :=
  ((pass2 cls byURL).map (fun e => e.2.map (·.2))).flatten

/-- Looks up the attribution set of product `pn` under entity `en`. -/
def lookupPS (es : EntitySummaries) (en pn : String) :
    Option FacadableProductSummary :=
  (mapGet? es en).bind (fun pss => mapGet? pss pn)

/-- One row of an opportunity's `subItems` table: `{url, ...urlStats}`. -/
structure OpportunityItem where
  url : String
  transferSize : ℚ
  blockingTime : ℚ
  mainThreadTime : ℚ
  firstStartTime : JsNum
  firstEndTime : JsNum
deriving DecidableEq, Repr

/-- Inserts into an already-sorted (by `transferSize`, descending) list, before
the first element it is not strictly smaller than. -/
def insertDesc (x : OpportunityItem) : List OpportunityItem → List OpportunityItem
  | [] => [x]
  | y :: ys =>
      if y.transferSize ≤ x.transferSize then x :: y :: ys
      else y :: insertDesc x ys

/-- `items.sort((a, b) => b.transferSize - a.transferSize)` of the source.
`Array.prototype.sort` is stable (ES2019), so its observable result is the
unique stable descending reordering, here computed by stable insertion sort. -/
def sortDesc : List OpportunityItem → List OpportunityItem
  | [] => []
  | x :: xs => insertDesc x (sortDesc xs)

/-- One `results` row (source lines 176–186): the product, its suggested facade
(the first of the facade list), the summed totals and the sorted sub-items. -/
structure Opportunity where
  productName : String
  facadeName : String
  facadeRepo : String
  transferSize : ℚ
  blockingTime : ℚ
  subItems : List OpportunityItem
deriving DecidableEq, Repr

/-- The overall `summary = {wastedBytes, wastedMs}` accumulator. -/
structure AuditSummaryTotals where
  wastedBytes : ℚ
  wastedMs : ℚ
deriving DecidableEq, Repr

/-- The audit's product: `{score: 1, notApplicable: true}` or a score-0 table of
opportunities with the summary totals and the `displayValue` item count. -/
inductive AuditResult where
  | notApplicable : AuditResult
  | failed (opportunities : List Opportunity) (summary : AuditSummaryTotals)
      (displayItemCount : Nat) : AuditResult
deriving DecidableEq, Repr

/-- The numeric `score` of an audit result. -/
def AuditResult.score : AuditResult → Nat
  | .notApplicable => 1
  | .failed _ _ _ => 0

/-- The number of listed opportunities of an audit result. -/
def AuditResult.opportunityCount : AuditResult → Nat
  | .notApplicable => 0
  | .failed opps _ _ => opps.length

/-- `{url, ...urlStats}` of source line 167: one member as a table row. -/
def mkItem (e : String × Summary) : OpportunityItem :=
  ⟨e.1, e.2.transferSize, e.2.blockingTime, e.2.mainThreadTime,
   e.2.firstStartTime, e.2.firstEndTime⟩

/-- Builds one `results` row from an attribution set (source lines 157–186).
`product.facades[0]` on an empty facade list would be `undefined` in JavaScript
and the subsequent `.name` access a `TypeError`; that fault is the `Except.error`
branch. -/
def buildOpportunity (ps : FacadableProductSummary) : Except String Opportunity :=
  match ps.product.facades with
  | [] => .error "TypeError: product.facades[0] is undefined"
  | bestFacade :: _ =>
    let items := ps.urlSummaries.map mkItem
    let transferSize := items.foldl (fun acc i => acc + i.transferSize) 0
    let blockingTime := items.foldl (fun acc i => acc + i.blockingTime) 0
    .ok
      { productName := ps.product.name
        facadeName := bestFacade.name
        facadeRepo := bestFacade.repo
        transferSize := transferSize
        blockingTime := blockingTime
        subItems := sortDesc items }

/-- The `for (const productSummary of productSummaries)` loop of `audit`
(source lines 157–187): one `results` row per attribution set, in order; the
only fault is the unreachable `facades[0]` access of an empty facade list. -/
def buildResults : List FacadableProductSummary → Except String (List Opportunity)
  | [] => .ok []
  | ps :: rest => do
      let o ← buildOpportunity ps
      let os ← buildResults rest
      .ok (o :: os)

/-- `LazyThirdParty.audit` from `getFacadableProductSummaries` onward (source
lines 150–213): build one row per attribution set, accumulate the summary, and
return not-applicable exactly when there are no rows. -/
def audit (cls : Classifier) (byURL : List (String × Summary)) :
    Except String AuditResult := do
  let productSummaries := getFacadableProductSummaries cls byURL
  let results ← buildResults productSummaries
  let summary : AuditSummaryTotals :=
    { wastedBytes := results.foldl (fun acc o => acc + o.transferSize) 0
      wastedMs := results.foldl (fun acc o => acc + o.blockingTime) 0 }
  if results.isEmpty then
    return .notApplicable
  else
    return .failed results summary results.length

/-! ## Record classification predicates (read off the two passes' guards) -/

/-- The record at this URL is classified to entity `en` and is not first-party:
it survives the `if (!entity || thirdPartyWeb.isFirstParty(url, mainEntity))
continue` guard of both passes with entity name `en`. -/
def qualifiesEntity (cls : Classifier) (en : String) (url : String) : Bool :=
  match cls.getEntity url with
  | none => false
  | some e => !cls.isFirstParty url && decide (e.name = en)

/-- The record is one of product `pn`'s own records under entity `en`: it takes
Pass 1's seeding branch for that product (`product && product.facades &&
product.facades.length`). -/
def isProductRecord (cls : Classifier) (en pn : String) (url : String) : Bool :=
  qualifiesEntity cls en url &&
    (match cls.getProduct url with
     | some p => !p.facades.isEmpty && decide (p.name = pn)
     | none => false)

/-- The record is an incidental resource of entity `en`: its own product is
absent or facade-less, so it takes Pass 2's attribution branch. -/
def isIncidentalRecord (cls : Classifier) (en : String) (url : String) : Bool :=
  qualifiesEntity cls en url &&
    (match cls.getProduct url with
     | some p => p.facades.isEmpty
     | none => true)

/-- The name of the facadable product this record seeds under entity `en`, if
any. -/
def facadableProductNameOf (cls : Classifier) (en : String) (url : String) :
    Option String :=
  if qualifiesEntity cls en url then
    match cls.getProduct url with
    | some p => if p.facades.isEmpty then none else some p.name
    | none => none
  else none

/-! ## Single-entry projections of the two passes

`pass1Local`/`pass2Local` describe what one pass iteration does to the single
attribution set at `(en, pn)`; `pass1Ent`/`pass2Ent` describe what it does to
the whole product map of entity `en`. They are related to `pass1Step` and
`pass2Step` by the transport lemmas below. -/

/-- Pass 1's update of one attribution set by one of its product's records:
`get(...) || {product, cutoffTime: Infinity, urlSummaries: new Map()}`, member
insertion, and the `Math.min` cutoff update. -/
def p1Update (o : Option FacadableProductSummary) (product : Product)
    (r : String × Summary) : FacadableProductSummary :=
  let ps := o.getD ⟨product, JsNum.inf, []⟩
  { ps with
    urlSummaries := mapSet ps.urlSummaries r.1 r.2,
    cutoffTime := jsMin ps.cutoffTime r.2.firstEndTime }

/-- Pass 1, projected to the single set at `(en, pn)`. -/
def pass1Local (cls : Classifier) (en pn : String)
    (o : Option FacadableProductSummary) (r : String × Summary) :
    Option FacadableProductSummary :=
  match cls.getProduct r.1 with
  | some product =>
      if isProductRecord cls en pn r.1 then some (p1Update o product r) else o
  | none => o

/-- Pass 2, projected to the single set at `(en, pn)`. -/
def pass2Local (cls : Classifier) (en : String)
    (o : Option FacadableProductSummary) (r : String × Summary) :
    Option FacadableProductSummary :=
  if isIncidentalRecord cls en r.1 then o.map (fun ps => incAdd ps r) else o

/-- Pass 1's update of entity `en`'s whole product map by one record. -/
def pssUpdate (cls : Classifier) (pss : List (String × FacadableProductSummary))
    (r : String × Summary) : List (String × FacadableProductSummary) :=
  match cls.getProduct r.1 with
  | some product =>
      if product.facades.isEmpty then pss
      else mapSet pss product.name (p1Update (mapGet? pss product.name) product r)
  | none => pss

/-- Pass 1, projected to the product map of entity `en`. -/
def pass1Ent (cls : Classifier) (en : String)
    (o : Option (List (String × FacadableProductSummary)))
    (r : String × Summary) : Option (List (String × FacadableProductSummary)) :=
  if qualifiesEntity cls en r.1 then some (pssUpdate cls (o.getD []) r) else o

/-- Pass 2's update of entity `en`'s whole product map by one record. -/
def pss2Update (cls : Classifier) (pss : List (String × FacadableProductSummary))
    (r : String × Summary) : List (String × FacadableProductSummary) :=
  match cls.getProduct r.1 with
  | some product =>
      if product.facades.isEmpty then pss.map (fun e => (e.1, incAdd e.2 r))
      else pss
  | none => pss.map (fun e => (e.1, incAdd e.2 r))

/-- Pass 2, projected to the product map of entity `en`. -/
def pass2Ent (cls : Classifier) (en : String)
    (o : Option (List (String × FacadableProductSummary)))
    (r : String × Summary) : Option (List (String × FacadableProductSummary)) :=
  if qualifiesEntity cls en r.1 then some (pss2Update cls (o.getD []) r) else o

/-! ## Specification-side characterizations -/

/-- The spec's cutoff invariant, in its own words: the minimum, over all of the
product's own matched cost records, of `firstHeadersReceivedTime`, with the
minimum initialized from `+infinity`. -/
def cutoffSpec (cls : Classifier) (en pn : String)
    (byURL : List (String × Summary)) : JsNum :=
  (byURL.filter (fun r => isProductRecord cls en pn r.1)).foldl
    (fun c r => jsMin c r.2.firstHeadersReceivedTime) JsNum.inf

/-- First-appearance accumulator for entity names: append a qualifying entity
name at the end unless already present. -/
def entStep (cls : Classifier) (acc : List String) (r : String × Summary) :
    List String :=
  match cls.getEntity r.1 with
  | none => acc
  | some e =>
      if cls.isFirstParty r.1 then acc
      else if e.name ∈ acc then acc else acc ++ [e.name]

/-- The entities in order of their first classified, non-first-party record. -/
def entityOrder (cls : Classifier) (byURL : List (String × Summary)) :
    List String :=
  byURL.foldl (entStep cls) []

/-- First-appearance accumulator for facadable product names of entity `en`. -/
def prodStep (cls : Classifier) (en : String) (acc : List String)
    (r : String × Summary) : List String :=
  match facadableProductNameOf cls en r.1 with
  | none => acc
  | some pn => if pn ∈ acc then acc else acc ++ [pn]

/-- Entity `en`'s facadable products in order of their first own matched
record. -/
def productOrder (cls : Classifier) (en : String)
    (byURL : List (String × Summary)) : List String :=
  byURL.foldl (prodStep cls en) []

/-- Accumulator describing the value held at one key after a sequence of keyed
insertions: the last inserted value at that key, if any. -/
def lastAt (u : String) (init : Option Summary) (l : List (String × Summary)) :
    Option Summary :=
  l.foldl (fun acc r => if r.1 = u then some r.2 else acc) init

/-- The cutoff held in an optional attribution set, `+infinity` when the set
does not exist yet (the initializer of Pass 1). -/
def ocut (o : Option FacadableProductSummary) : JsNum :=
  (o.map (fun ps => ps.cutoffTime)).getD JsNum.inf

/-- The member stored under URL `u` in an optional attribution set. -/
def omem (u : String) (o : Option FacadableProductSummary) : Option Summary :=
  o.bind (fun ps => mapGet? ps.urlSummaries u)

/-- Wasted-bytes total carried by an audit result (0 when not applicable). -/
def AuditResult.wastedBytesOf : AuditResult → ℚ
  | .notApplicable => 0
  | .failed _ t _ => t.wastedBytes

/-- Wasted-ms total carried by an audit result (0 when not applicable). -/
def AuditResult.wastedMsOf : AuditResult → ℚ
  | .notApplicable => 0
  | .failed _ t _ => t.wastedMs

/-- The listed opportunities' transfer-size totals, in order. -/
def AuditResult.oppTransferSizes : AuditResult → List ℚ
  | .notApplicable => []
  | .failed o _ _ => o.map (fun x => x.transferSize)

/-- The listed opportunities' blocking-time totals, in order. -/
def AuditResult.oppBlockingTimes : AuditResult → List ℚ
  | .notApplicable => []
  | .failed o _ _ => o.map (fun x => x.blockingTime)

/-- The listed opportunities' product names, in order. -/
def AuditResult.oppProductNames : AuditResult → List String
  | .notApplicable => []
  | .failed o _ _ => o.map (fun x => x.productName)

/-- The claim's "order the sets were created during Pass 1": facadable product
names in order of their first own matched record, across all entities. -/
def creationStep (cls : Classifier) (acc : List String) (r : String × Summary) :
    List String :=
  match cls.getEntity r.1 with
  | none => acc
  | some _ =>
      if cls.isFirstParty r.1 then acc
      else
        match cls.getProduct r.1 with
        | some p =>
            if p.facades.isEmpty then acc
            else if p.name ∈ acc then acc else acc ++ [p.name]
        | none => acc

/-- Global set-creation order of Pass 1 (first-encountered product first). -/
def setCreationOrder (cls : Classifier) (byURL : List (String × Summary)) :
    List String :=
  byURL.foldl (creationStep cls) []

/-! ## Concrete inputs for witnesses and counterexamples -/

/-- Facadable product `PA` of entity `A`. -/
def exProdA : Product := ⟨"PA", [⟨"FA", "https://github.com/example/fa"⟩]⟩

/-- A second (sibling) facadable product `PA2` of entity `A`. -/
def exProdA2 : Product := ⟨"PA2", [⟨"FA2", "https://github.com/example/fa2"⟩]⟩

/-- Facadable product `PB` of entity `B`. -/
def exProdB : Product := ⟨"PB", [⟨"FB", "https://github.com/example/fb"⟩]⟩

/-- A concrete classification: entity `A` serves `pA` (product `PA`), `rA`
(also `PA`), `qA` (product `PA2`) and the incidental `xA`, `yA`; entity `B`
serves `pB` (product `PB`) and the incidental `xB`; nothing is first-party. -/
def exCls : Classifier where
  getEntity u :=
    if u = "pA" ∨ u = "rA" ∨ u = "qA" ∨ u = "xA" ∨ u = "yA" then some ⟨"A"⟩
    else if u = "pB" ∨ u = "xB" then some ⟨"B"⟩
    else none
  getProduct u :=
    if u = "pA" ∨ u = "rA" then some exProdA
    else if u = "qA" then some exProdA2
    else if u = "pB" then some exProdB
    else none
  isFirstParty _ := false

/-! ## Basic map lemmas -/

theorem mapGet?_mapSet_self {α : Type} (m : List (String × α)) (k : String)
    (v : α) : mapGet? (mapSet m k v) k = some v := by
  induction m with
  | nil => simp [mapSet, mapGet?]
  | cons e rest ih =>
      by_cases h : e.1 = k
      · simp [mapSet, mapGet?, h]
      · simp [mapSet, mapGet?, h, ih]

theorem mapGet?_mapSet_ne {α : Type} (m : List (String × α)) (k k' : String)
    (v : α) (h : k' ≠ k) : mapGet? (mapSet m k v) k' = mapGet? m k' := by
  induction m with
  | nil =>
      have h' : ¬(k = k') := fun hh => h hh.symm
      simp [mapSet, mapGet?, h']
  | cons e rest ih =>
      obtain ⟨a, b⟩ := e
      by_cases he : a = k
      · subst he
        have h' : ¬(a = k') := fun hh => h hh.symm
        simp [mapSet, mapGet?, h']
      · by_cases he' : a = k'
        · simp [mapSet, mapGet?, he, he', h]
        · simp [mapSet, mapGet?, he, he', ih]

theorem keys_mapSet {α : Type} (m : List (String × α)) (k : String) (v : α) :
    (mapSet m k v).map Prod.fst =
      if k ∈ m.map Prod.fst then m.map Prod.fst else m.map Prod.fst ++ [k] := by
  induction m with
  | nil => simp [mapSet]
  | cons e rest ih =>
      by_cases h : e.1 = k
      · simp [mapSet, h]
      · have h' : ¬(k = e.1) := fun hh => h hh.symm
        simp only [mapSet, if_neg h, List.map_cons, ih]
        by_cases hk : k ∈ rest.map Prod.fst
        · simp [hk, h']
        · simp [hk, h']

theorem mem_of_mapGet?_eq_some {α : Type} {m : List (String × α)} {k : String}
    {v : α} (h : mapGet? m k = some v) : (k, v) ∈ m := by
  induction m with
  | nil => simp [mapGet?] at h
  | cons e rest ih =>
      obtain ⟨a, b⟩ := e
      by_cases he : a = k
      · simp only [mapGet?, if_pos he] at h
        cases h
        subst he
        exact List.mem_cons_self _ _
      · simp only [mapGet?, if_neg he] at h
        exact List.mem_cons_of_mem _ (ih h)

theorem mapGet?_map_val {α β : Type} (m : List (String × α)) (g : α → β)
    (k : String) :
    mapGet? (m.map (fun e => (e.1, g e.2))) k = (mapGet? m k).map g := by
  induction m with
  | nil => simp [mapGet?]
  | cons e rest ih =>
      by_cases he : e.1 = k
      · simp [mapGet?, he]
      · simp [mapGet?, he, ih]

/-- `lookupPS` in a `getD []`-normalized form that is uniform over an absent
entity key. -/
theorem lookupPS_eq (es : EntitySummaries) (en pn : String) :
    lookupPS es en pn = mapGet? ((mapGet? es en).getD []) pn := by
  cases h : mapGet? es en <;> simp [lookupPS, h, mapGet?]

/-! ## Transport of the passes to single attribution sets -/

theorem lookupPS_pass1Step (cls : Classifier) (es : EntitySummaries)
    (r : String × Summary) (en pn : String) :
    lookupPS (pass1Step cls es r) en pn =
      pass1Local cls en pn (lookupPS es en pn) r := by
  rw [lookupPS_eq, lookupPS_eq]
  cases hprod : cls.getProduct r.1 with
  | none =>
      cases hent : cls.getEntity r.1 with
      | none => simp [pass1Step, pass1Local, hent, hprod]
      | some entity =>
          by_cases hfp : cls.isFirstParty r.1
          · simp [pass1Step, pass1Local, hent, hprod, hfp]
          · by_cases hen : entity.name = en
            · subst hen
              simp [pass1Step, pass1Local, hent, hprod, hfp, mapGet?_mapSet_self]
            · simp [pass1Step, pass1Local, hent, hprod, hfp,
                mapGet?_mapSet_ne _ _ _ _ (fun hh => hen hh.symm)]
  | some product =>
      cases hent : cls.getEntity r.1 with
      | none =>
          simp [pass1Step, pass1Local, isProductRecord, qualifiesEntity, hent,
            hprod]
      | some entity =>
          by_cases hfp : cls.isFirstParty r.1
          · simp [pass1Step, pass1Local, isProductRecord, qualifiesEntity, hent,
              hprod, hfp]
          · by_cases hfac : product.facades.isEmpty
            · by_cases hen : entity.name = en
              · subst hen
                simp [pass1Step, pass1Local, isProductRecord, qualifiesEntity,
                  hent, hprod, hfp, hfac, mapGet?_mapSet_self]
              · simp [pass1Step, pass1Local, isProductRecord, qualifiesEntity,
                  hent, hprod, hfp, hfac,
                  mapGet?_mapSet_ne _ _ _ _ (fun hh => hen hh.symm)]
            · by_cases hen : entity.name = en
              · subst hen
                by_cases hpn : product.name = pn
                · subst hpn
                  simp [pass1Step, pass1Local, isProductRecord, qualifiesEntity,
                    hent, hprod, hfp, hfac, p1Update, mapGet?_mapSet_self]
                · simp [pass1Step, pass1Local, isProductRecord, qualifiesEntity,
                    hent, hprod, hfp, hfac, hpn, mapGet?_mapSet_self,
                    mapGet?_mapSet_ne _ _ _ _ (fun hh => hpn hh.symm)]
              · simp [pass1Step, pass1Local, isProductRecord, qualifiesEntity,
                  hent, hprod, hfp, hfac, hen,
                  mapGet?_mapSet_ne _ _ _ _ (fun hh => hen hh.symm)]

theorem lookupPS_pass2Step (cls : Classifier) (es : EntitySummaries)
    (r : String × Summary) (en pn : String) :
    lookupPS (pass2Step cls es r) en pn =
      pass2Local cls en (lookupPS es en pn) r := by
  rw [lookupPS_eq, lookupPS_eq]
  cases hprod : cls.getProduct r.1 with
  | none =>
      cases hent : cls.getEntity r.1 with
      | none =>
          simp [pass2Step, pass2Local, isIncidentalRecord, qualifiesEntity,
            hent, hprod]
      | some entity =>
          by_cases hfp : cls.isFirstParty r.1
          · simp [pass2Step, pass2Local, isIncidentalRecord, qualifiesEntity,
              hent, hprod, hfp]
          · by_cases hen : entity.name = en
            · subst hen
              simp [pass2Step, pass2Local, isIncidentalRecord, qualifiesEntity,
                hent, hprod, hfp, mapGet?_mapSet_self]
              exact mapGet?_map_val _ (fun ps => incAdd ps r) pn
            · simp [pass2Step, pass2Local, isIncidentalRecord, qualifiesEntity,
                hent, hprod, hfp, hen,
                mapGet?_mapSet_ne _ _ _ _ (fun hh => hen hh.symm)]
  | some product =>
      cases hent : cls.getEntity r.1 with
      | none =>
          simp [pass2Step, pass2Local, isIncidentalRecord, qualifiesEntity,
            hent, hprod]
      | some entity =>
          by_cases hfp : cls.isFirstParty r.1
          · simp [pass2Step, pass2Local, isIncidentalRecord, qualifiesEntity,
              hent, hprod, hfp]
          · by_cases hfac : product.facades.isEmpty
            · by_cases hen : entity.name = en
              · subst hen
                simp [pass2Step, pass2Local, isIncidentalRecord, qualifiesEntity,
                  hent, hprod, hfp, hfac, mapGet?_mapSet_self]
                exact mapGet?_map_val _ (fun ps => incAdd ps r) pn
              · simp [pass2Step, pass2Local, isIncidentalRecord, qualifiesEntity,
                  hent, hprod, hfp, hfac, hen,
                  mapGet?_mapSet_ne _ _ _ _ (fun hh => hen hh.symm)]
            · by_cases hen : entity.name = en
              · subst hen
                simp [pass2Step, pass2Local, isIncidentalRecord, qualifiesEntity,
                  hent, hprod, hfp, hfac, mapGet?_mapSet_self]
              · simp [pass2Step, pass2Local, isIncidentalRecord, qualifiesEntity,
                  hent, hprod, hfp, hfac, hen,
                  mapGet?_mapSet_ne _ _ _ _ (fun hh => hen hh.symm)]

theorem lookupPS_foldl_pass1 (cls : Classifier) (en pn : String) :
    ∀ (l : List (String × Summary)) (es : EntitySummaries),
      lookupPS (l.foldl (pass1Step cls) es) en pn =
        l.foldl (pass1Local cls en pn) (lookupPS es en pn) := by
  intro l
  induction l with
  | nil => intro es; rfl
  | cons r t ih =>
      intro es
      simp only [List.foldl_cons]
      rw [ih, lookupPS_pass1Step]

theorem lookupPS_foldl_pass2 (cls : Classifier) (en pn : String) :
    ∀ (l : List (String × Summary)) (es : EntitySummaries),
      lookupPS (l.foldl (pass2Step cls) es) en pn =
        l.foldl (pass2Local cls en) (lookupPS es en pn) := by
  intro l
  induction l with
  | nil => intro es; rfl
  | cons r t ih =>
      intro es
      simp only [List.foldl_cons]
      rw [ih, lookupPS_pass2Step]

theorem mapGet?_mapSet {α : Type} (m : List (String × α)) (k k' : String)
    (v : α) :
    mapGet? (mapSet m k v) k' = if k = k' then some v else mapGet? m k' := by
  by_cases h : k = k'
  · subst h; simp [mapGet?_mapSet_self]
  · simp [h, mapGet?_mapSet_ne _ _ _ _ (fun hh => h hh.symm)]

/-! ## Characterization of the Pass 1 fold on a single set -/

theorem ocut_pass1Local (cls : Classifier) (en pn : String)
    (o : Option FacadableProductSummary) (r : String × Summary) :
    ocut (pass1Local cls en pn o r) =
      if isProductRecord cls en pn r.1 then jsMin (ocut o) r.2.firstEndTime
      else ocut o := by
  cases hprod : cls.getProduct r.1 with
  | none => simp [pass1Local, isProductRecord, hprod, Bool.and_comm]
  | some p =>
      by_cases hr : isProductRecord cls en pn r.1
      · cases o <;> simp [pass1Local, hprod, hr, p1Update, ocut]
      · simp [pass1Local, hprod, hr]

theorem omem_pass1Local (cls : Classifier) (en pn u : String)
    (o : Option FacadableProductSummary) (r : String × Summary) :
    omem u (pass1Local cls en pn o r) =
      if isProductRecord cls en pn r.1 then
        (if r.1 = u then some r.2 else omem u o)
      else omem u o := by
  cases hprod : cls.getProduct r.1 with
  | none => simp [pass1Local, isProductRecord, hprod, Bool.and_comm]
  | some p =>
      by_cases hr : isProductRecord cls en pn r.1
      · cases o <;>
          simp [pass1Local, hprod, hr, p1Update, omem, mapGet?_mapSet, mapGet?]
      · simp [pass1Local, hprod, hr]

theorem ocut_foldl_pass1Local (cls : Classifier) (en pn : String) :
    ∀ (l : List (String × Summary)) (o : Option FacadableProductSummary),
      ocut (l.foldl (pass1Local cls en pn) o) =
        (l.filter (fun r => isProductRecord cls en pn r.1)).foldl
          (fun c r => jsMin c r.2.firstEndTime) (ocut o) := by
  intro l
  induction l with
  | nil => intro o; rfl
  | cons r t ih =>
      intro o
      by_cases hr : isProductRecord cls en pn r.1
      · simp only [List.foldl_cons, List.filter_cons, hr, if_pos]
        rw [ih]
        simp [ocut_pass1Local, hr]
      · simp only [List.foldl_cons, List.filter_cons, hr]
        rw [ih]
        simp [ocut_pass1Local, hr]

theorem omem_foldl_pass1Local (cls : Classifier) (en pn u : String) :
    ∀ (l : List (String × Summary)) (o : Option FacadableProductSummary),
      omem u (l.foldl (pass1Local cls en pn) o) =
        lastAt u (omem u o)
          (l.filter (fun r => isProductRecord cls en pn r.1)) := by
  intro l
  induction l with
  | nil => intro o; rfl
  | cons r t ih =>
      intro o
      by_cases hr : isProductRecord cls en pn r.1
      · simp only [List.foldl_cons, List.filter_cons, hr, if_pos]
        rw [ih]
        simp [omem_pass1Local, hr, lastAt]
      · simp only [List.foldl_cons, List.filter_cons, hr]
        rw [ih]
        simp [omem_pass1Local, hr]

/-! ## Characterization of the Pass 2 fold on a single set -/

theorem pass2Local_none (cls : Classifier) (en : String) (r : String × Summary) :
    pass2Local cls en none r = none := by
  simp [pass2Local]

theorem foldl_pass2Local_none (cls : Classifier) (en : String) :
    ∀ (l : List (String × Summary)),
      l.foldl (pass2Local cls en) none = none := by
  intro l
  induction l with
  | nil => rfl
  | cons r t ih => simp [List.foldl_cons, pass2Local_none, ih]

theorem foldl_pass2Local_some (cls : Classifier) (en : String) :
    ∀ (l : List (String × Summary)) (ps : FacadableProductSummary),
      ∃ ps', l.foldl (pass2Local cls en) (some ps) = some ps' ∧
        ps'.product = ps.product ∧
        ps'.cutoffTime = ps.cutoffTime ∧
        ∀ u, mapGet? ps'.urlSummaries u =
          lastAt u (mapGet? ps.urlSummaries u)
            (l.filter (fun r =>
              isIncidentalRecord cls en r.1 &&
                !jsLt r.2.firstStartTime ps.cutoffTime)) := by
  intro l
  induction l with
  | nil => intro ps; exact ⟨ps, rfl, rfl, rfl, fun u => rfl⟩
  | cons r t ih =>
      intro ps
      by_cases hinc : isIncidentalRecord cls en r.1
      · by_cases hlt : jsLt r.2.firstStartTime ps.cutoffTime
        · obtain ⟨ps', h1, h2, h3, h4⟩ := ih ps
          refine ⟨ps', ?_, h2, h3, ?_⟩
          · simpa [List.foldl_cons, pass2Local, hinc, incAdd, hlt] using h1
          · intro u
            rw [h4 u]
            simp [List.filter_cons, hinc, hlt]
        · set ps2 : FacadableProductSummary :=
            { ps with urlSummaries := mapSet ps.urlSummaries r.1 r.2 } with hps2
          obtain ⟨ps', h1, h2, h3, h4⟩ := ih ps2
          refine ⟨ps', ?_, ?_, ?_, ?_⟩
          · simpa [List.foldl_cons, pass2Local, hinc, incAdd, hlt, hps2] using h1
          · simpa [hps2] using h2
          · simpa [hps2] using h3
          · intro u
            rw [h4 u]
            have hc : ps2.cutoffTime = ps.cutoffTime := by simp [hps2]
            simp only [List.filter_cons, hinc, hlt, Bool.not_false,
              Bool.and_true, hc]
            simp [lastAt, hps2, mapGet?_mapSet]
      · obtain ⟨ps', h1, h2, h3, h4⟩ := ih ps
        refine ⟨ps', ?_, h2, h3, ?_⟩
        · simpa [List.foldl_cons, pass2Local, hinc] using h1
        · intro u
          rw [h4 u]
          simp [List.filter_cons, hinc]

/-! ## Keyed-insertion accumulator lemmas -/

theorem lastAt_cons (u : String) (init : Option Summary) (r : String × Summary)
    (t : List (String × Summary)) :
    lastAt u init (r :: t) =
      lastAt u (if r.1 = u then some r.2 else init) t := rfl

theorem lastAt_of_not_mem (u : String) (init : Option Summary) :
    ∀ (l : List (String × Summary)), u ∉ l.map Prod.fst →
      lastAt u init l = init := by
  intro l
  induction l generalizing init with
  | nil => intro _; rfl
  | cons r t ih =>
      intro h
      have hr : r.1 ≠ u := by
        intro hh
        exact h (by simp [hh])
      rw [lastAt_cons]
      simp only [hr, if_false]
      exact ih init (fun hu => h (by simp; right; simpa using hu))

theorem lastAt_eq_some_of_nodup (u : String) (s : Summary)
    (init : Option Summary) :
    ∀ (l : List (String × Summary)), (l.map Prod.fst).Nodup →
      (u, s) ∈ l → lastAt u init l = some s := by
  intro l
  induction l generalizing init with
  | nil => intro _ h; simp at h
  | cons r t ih =>
      intro hnd hmem
      have hnd' : (t.map Prod.fst).Nodup := (List.nodup_cons.mp (by simpa using hnd)).2
      have hr1 : r.1 ∉ t.map Prod.fst := (List.nodup_cons.mp (by simpa using hnd)).1
      rcases List.mem_cons.mp hmem with heq | hmem'
      · subst heq
        rw [lastAt_cons]
        simp only [if_pos rfl]
        exact lastAt_of_not_mem u (some s) t (by simpa using hr1)
      · have hr : r.1 ≠ u := by
          intro hh
          apply hr1
          rw [hh]
          exact List.mem_map.mpr ⟨(u, s), hmem', rfl⟩
        rw [lastAt_cons]
        simp only [hr, if_false]
        exact ih init hnd' hmem'

/-- An incidental record is no product's own record: the two Pass guards are
mutually exclusive on the product component of the classification. -/
theorem not_product_of_incidental (cls : Classifier) (en en' pn u : String)
    (h : isIncidentalRecord cls en u = true) :
    isProductRecord cls en' pn u = false := by
  unfold isIncidentalRecord at h
  unfold isProductRecord
  cases hprod : cls.getProduct u with
  | none => simp [hprod]
  | some p =>
      rw [hprod] at h
      simp only [Bool.and_eq_true] at h
      simp [hprod, h.2]

/-! ## JsNum order lemmas -/

theorem jsLt_eq_false_of_jsLe {a b : JsNum} (h : jsLe a b = true) :
    jsLt b a = false := by
  cases a <;> cases b <;> simp_all [jsLe, jsLt]

theorem jsLt_eq_true_of_not_jsLe {a b : JsNum} (ha : a ≠ JsNum.nan)
    (hb : b ≠ JsNum.nan) (h : jsLe a b = false) : jsLt b a = true := by
  cases a <;> cases b <;> simp_all [jsLe, jsLt]

theorem jsLe_jsMin_left {a b : JsNum} (ha : a ≠ JsNum.nan)
    (hb : b ≠ JsNum.nan) : jsLe (jsMin a b) a = true := by
  cases a <;> cases b <;> simp_all [jsLe, jsMin]

/-! ## Unique keys -/

theorem nodup_key_unique {l : List (String × Summary)} {u : String}
    {s s' : Summary} (hnd : (l.map Prod.fst).Nodup) (h1 : (u, s) ∈ l)
    (h2 : (u, s') ∈ l) : s = s' := by
  induction l with
  | nil => simp at h1
  | cons r t ih =>
      have hnd' : (t.map Prod.fst).Nodup := (List.nodup_cons.mp (by simpa using hnd)).2
      have hr1 : r.1 ∉ t.map Prod.fst := (List.nodup_cons.mp (by simpa using hnd)).1
      rcases List.mem_cons.mp h1 with he1 | hm1 <;>
        rcases List.mem_cons.mp h2 with he2 | hm2
      · rw [← he1] at he2
        cases he2
        rfl
      · exfalso
        apply hr1
        rw [← he1]
        exact List.mem_map.mpr ⟨(u, s'), hm2, rfl⟩
      · exfalso
        apply hr1
        rw [← he2]
        exact List.mem_map.mpr ⟨(u, s), hm1, rfl⟩
      · exact ih hnd' hm1 hm2

theorem not_mem_filter_keys {l : List (String × Summary)} {u : String}
    {s : Summary} {p : String × Summary → Bool}
    (hnd : (l.map Prod.fst).Nodup) (hmem : (u, s) ∈ l)
    (hp : p (u, s) = false) : u ∉ (l.filter p).map Prod.fst := by
  intro hu
  obtain ⟨e, he, heq⟩ := List.mem_map.mp hu
  have hel : e ∈ l := List.mem_of_mem_filter he
  have hpe : p e = true := List.of_mem_filter he
  obtain ⟨a, b⟩ := e
  cases heq
  have : s = b := nodup_key_unique hnd hmem hel
  rw [← this] at hpe
  rw [hp] at hpe
  exact Bool.false_ne_true hpe

theorem nodup_keys_filter {l : List (String × Summary)}
    {p : String × Summary → Bool} (hnd : (l.map Prod.fst).Nodup) :
    ((l.filter p).map Prod.fst).Nodup :=
  List.Nodup.sublist (List.Sublist.map Prod.fst (List.filter_sublist l)) hnd

/-! ## Pass-level characterizations -/

theorem lookupPS_pass1 (cls : Classifier) (byURL : List (String × Summary))
    (en pn : String) :
    lookupPS (pass1 cls byURL) en pn =
      byURL.foldl (pass1Local cls en pn) none := by
  unfold pass1
  rw [lookupPS_foldl_pass1]
  rfl

theorem lookupPS_pass2 (cls : Classifier) (byURL : List (String × Summary))
    (en pn : String) :
    lookupPS (pass2 cls byURL) en pn =
      byURL.foldl (pass2Local cls en) (lookupPS (pass1 cls byURL) en pn) := by
  unfold pass2
  rw [lookupPS_foldl_pass2]

/-- After Pass 1, the cutoff of the set at `(en, pn)` is the `jsMin`-fold of the
product's own matched records' headers-received times, initialized from
`+infinity`. -/
theorem pass1_cutoff_char (cls : Classifier) (byURL : List (String × Summary))
    (en pn : String) (ps : FacadableProductSummary)
    (h : lookupPS (pass1 cls byURL) en pn = some ps) :
    ps.cutoffTime = cutoffSpec cls en pn byURL := by
  have h1 := ocut_foldl_pass1Local cls en pn byURL none
  rw [← lookupPS_pass1, h] at h1
  simpa [ocut, cutoffSpec, Summary.firstHeadersReceivedTime] using h1

/-- After Pass 1, the member stored at URL `u` of the set at `(en, pn)` is the
last matched record with that URL. -/
theorem pass1_member_char (cls : Classifier) (byURL : List (String × Summary))
    (en pn : String) (ps : FacadableProductSummary) (u : String)
    (h : lookupPS (pass1 cls byURL) en pn = some ps) :
    mapGet? ps.urlSummaries u =
      lastAt u none (byURL.filter (fun r => isProductRecord cls en pn r.1)) := by
  have h1 := omem_foldl_pass1Local cls en pn u byURL none
  rw [← lookupPS_pass1, h] at h1
  simpa [omem] using h1

/-! ## Claim C2 -/

/-- C2: for every AttributionSet produced by Pass 1, its `cutoffTime` equals the
minimum, over all of that product's own matched cost records, of
`firstHeadersReceivedTime`, with the minimum initialized from `+infinity`
(`cutoffSpec` is that minimum, stated in the spec's words). -/
theorem c2_cutoffTime_eq_min_headersReceived (cls : Classifier)
    (byURL : List (String × Summary)) (en pn : String)
    (ps : FacadableProductSummary)
    (h : lookupPS (pass1 cls byURL) en pn = some ps) :
    ps.cutoffTime = cutoffSpec cls en pn byURL :=
  pass1_cutoff_char cls byURL en pn ps h

/-- Witness for C2 at a concrete input: two matched records of product `PA` with
headers-received times 201 and 150 give cutoff 150. -/
theorem c2_witness :
    (FacadableProductSummary.mk exProdA (JsNum.val 150)
        [("pA", ⟨4000, 0, 0, .val 200, .val 201⟩),
         ("rA", ⟨2000, 0, 0, .val 100, .val 150⟩)]).cutoffTime =
      cutoffSpec exCls "A" "PA"
        [("pA", ⟨4000, 0, 0, .val 200, .val 201⟩),
         ("rA", ⟨2000, 0, 0, .val 100, .val 150⟩),
         ("xA", ⟨8000, 0, 0, .val 300, .val 301⟩)] :=
  c2_cutoffTime_eq_min_headersReceived exCls
    [("pA", ⟨4000, 0, 0, .val 200, .val 201⟩),
     ("rA", ⟨2000, 0, 0, .val 100, .val 150⟩),
     ("xA", ⟨8000, 0, 0, .val 300, .val 301⟩)] "A" "PA" _ (by decide)

/-! ## Claim C9 -/

/-- C9: the cutoff of a product's set is monotonically non-increasing as more of
that product's own matched records are added: appending one more matched record
(with a defined headers-received time) to the input gives a cutoff that is `<=`
the previous one. -/
theorem c9_cutoff_monotone (cls : Classifier) (byURL : List (String × Summary))
    (en pn u : String) (s : Summary) (ps ps' : FacadableProductSummary)
    (h1 : lookupPS (pass1 cls byURL) en pn = some ps)
    (h2 : lookupPS (pass1 cls (byURL ++ [(u, s)])) en pn = some ps')
    (hrec : isProductRecord cls en pn u = true)
    (hend : s.firstEndTime ≠ JsNum.nan)
    (hcut : ps.cutoffTime ≠ JsNum.nan) :
    jsLe ps'.cutoffTime ps.cutoffTime = true := by
  have e1 := pass1_cutoff_char cls byURL en pn ps h1
  have e2 := pass1_cutoff_char cls (byURL ++ [(u, s)]) en pn ps' h2
  have e3 : cutoffSpec cls en pn (byURL ++ [(u, s)]) =
      jsMin (cutoffSpec cls en pn byURL) s.firstEndTime := by
    simp [cutoffSpec, List.filter_append, List.foldl_append, hrec,
      Summary.firstHeadersReceivedTime]
  rw [e1, e2, e3]
  exact jsLe_jsMin_left (e1 ▸ hcut) hend

/-- Witness for C9 at a concrete input: appending a `PA` record with
headers-received time 150 lowers the cutoff from 201 to 150. -/
theorem c9_witness :
    jsLe (JsNum.val 150) (JsNum.val 201) = true :=
  c9_cutoff_monotone exCls [("pA", ⟨4000, 0, 0, .val 200, .val 201⟩)]
    "A" "PA" "rA" ⟨2000, 0, 0, .val 100, .val 150⟩
    (FacadableProductSummary.mk exProdA (JsNum.val 201)
      [("pA", ⟨4000, 0, 0, .val 200, .val 201⟩)])
    (FacadableProductSummary.mk exProdA (JsNum.val 150)
      [("pA", ⟨4000, 0, 0, .val 200, .val 201⟩),
       ("rA", ⟨2000, 0, 0, .val 100, .val 150⟩)])
    (by decide) (by decide) (by decide) (by decide) (by decide)

/-! ## Claim C1 -/

/-- C1: a same-entity record whose own product is absent or facade-less is a
member of an AttributionSet seeded in Pass 1 for that entity **iff** its
`firstStartTime` is `>=` the set's `cutoffTime`; membership therefore flips
exactly when `firstStartTime` crosses the cutoff boundary. Stated for defined
(non-`NaN`) timing values. -/
theorem c1_membership_iff_cutoff (cls : Classifier)
    (byURL : List (String × Summary)) (en pn u : String) (s : Summary)
    (ps : FacadableProductSummary)
    (hnd : (byURL.map Prod.fst).Nodup)
    (hmem : (u, s) ∈ byURL)
    (hinc : isIncidentalRecord cls en u = true)
    (h1 : lookupPS (pass1 cls byURL) en pn = some ps)
    (hcut : ps.cutoffTime ≠ JsNum.nan)
    (hstart : s.firstStartTime ≠ JsNum.nan) :
    ∃ ps', lookupPS (pass2 cls byURL) en pn = some ps' ∧
      ps'.cutoffTime = ps.cutoffTime ∧
      (mapGet? ps'.urlSummaries u = some s ↔
        jsLe ps.cutoffTime s.firstStartTime = true) := by
  obtain ⟨ps', hfold, hprodeq, hcuteq, hmemchar⟩ :=
    foldl_pass2Local_some cls en byURL ps
  refine ⟨ps', ?_, hcuteq, ?_⟩
  · rw [lookupPS_pass2, h1]
    exact hfold
  · have hm := hmemchar u
    have hps_mem : mapGet? ps.urlSummaries u = none := by
      rw [pass1_member_char cls byURL en pn ps u h1]
      exact lastAt_of_not_mem u none _
        (not_mem_filter_keys hnd hmem
          (not_product_of_incidental cls en en pn u hinc))
    rw [hps_mem] at hm
    by_cases hle : jsLe ps.cutoffTime s.firstStartTime = true
    · have hpred : (fun r : String × Summary =>
          isIncidentalRecord cls en r.1 &&
            !jsLt r.2.firstStartTime ps.cutoffTime) (u, s) = true := by
        simp [hinc, jsLt_eq_false_of_jsLe hle]
      have hfm : (u, s) ∈ byURL.filter (fun r =>
          isIncidentalRecord cls en r.1 &&
            !jsLt r.2.firstStartTime ps.cutoffTime) :=
        List.mem_filter.mpr ⟨hmem, hpred⟩
      have hlast := lastAt_eq_some_of_nodup u s none _
        (nodup_keys_filter hnd) hfm
      rw [hm, hlast]
      simp [hle]
    · have hlt : jsLt s.firstStartTime ps.cutoffTime = true :=
        jsLt_eq_true_of_not_jsLe hcut hstart (Bool.not_eq_true _ ▸ hle)
      have hpred : (fun r : String × Summary =>
          isIncidentalRecord cls en r.1 &&
            !jsLt r.2.firstStartTime ps.cutoffTime) (u, s) = false := by
        simp [hlt]
      have hnm : u ∉ ((byURL.filter (fun r =>
          isIncidentalRecord cls en r.1 &&
            !jsLt r.2.firstStartTime ps.cutoffTime)).map Prod.fst) :=
        @not_mem_filter_keys byURL u s
          (fun r => isIncidentalRecord cls en r.1 &&
            !jsLt r.2.firstStartTime ps.cutoffTime) hnd hmem hpred
      have hlast := lastAt_of_not_mem u none _ hnm
      rw [hm, hlast]
      simp [hle]

/-- Witness for C1 at a concrete input: the incidental record `xA` (start 300)
is a member of `PA`'s set (cutoff 201) since `201 <= 300`. -/
theorem c1_witness :
    ∃ ps', lookupPS (pass2 exCls
        [("pA", ⟨4000, 0, 0, .val 200, .val 201⟩),
         ("xA", ⟨8000, 0, 0, .val 300, .val 301⟩)]) "A" "PA" = some ps' ∧
      ps'.cutoffTime =
        (FacadableProductSummary.mk exProdA (JsNum.val 201)
          [("pA", ⟨4000, 0, 0, .val 200, .val 201⟩)]).cutoffTime ∧
      (mapGet? ps'.urlSummaries "xA" = some ⟨8000, 0, 0, .val 300, .val 301⟩ ↔
        jsLe (FacadableProductSummary.mk exProdA (JsNum.val 201)
          [("pA", ⟨4000, 0, 0, .val 200, .val 201⟩)]).cutoffTime
          (Summary.mk 8000 0 0 (.val 300) (.val 301)).firstStartTime = true) :=
  c1_membership_iff_cutoff exCls
    [("pA", ⟨4000, 0, 0, .val 200, .val 201⟩),
     ("xA", ⟨8000, 0, 0, .val 300, .val 301⟩)] "A" "PA" "xA"
    ⟨8000, 0, 0, .val 300, .val 301⟩
    (FacadableProductSummary.mk exProdA (JsNum.val 201)
      [("pA", ⟨4000, 0, 0, .val 200, .val 201⟩)])
    (by decide) (by decide) (by decide) (by decide) (by decide) (by decide)

/-! ## Claim C6 -/

theorem jsLt_nan_left (b : JsNum) : jsLt JsNum.nan b = false := by
  cases b <;> rfl

theorem jsLt_nan_right (a : JsNum) : jsLt a JsNum.nan = false := by
  cases a <;> rfl

/-- C6 counterexample: the incidental record `xA` has `firstStartTime`
missing/undefined (`NaN`). The claim says such a record is excluded from
attribution; the code's guard `urlSummary.firstStartTime < cutoffTime` is
`false` for `undefined`/`NaN`, so the record **is** added to the set. -/
theorem c6_counterexample :
    lookupPS (pass2 exCls
        [("pA", ⟨4000, 0, 0, .val 200, .val 201⟩),
         ("xA", ⟨8000, 0, 0, .nan, .val 301⟩)]) "A" "PA" =
      some ⟨exProdA, JsNum.val 201,
        [("pA", ⟨4000, 0, 0, .val 200, .val 201⟩),
         ("xA", ⟨8000, 0, 0, .nan, .val 301⟩)]⟩ ∧
    mapGet? (FacadableProductSummary.mk exProdA (JsNum.val 201)
        [("pA", ⟨4000, 0, 0, .val 200, .val 201⟩),
         ("xA", ⟨8000, 0, 0, .nan, .val 301⟩)]).urlSummaries "xA" =
      some ⟨8000, 0, 0, .nan, .val 301⟩ := by
  constructor <;> decide

/-- C6 amended: a record with a missing/undefined `firstStartTime`, or a set
whose cutoff is `NaN` (e.g. from a product record with missing headers-received
time), always passes Pass 2's guard — JavaScript comparisons against
`undefined`/`NaN` are `false` — so the record is attributed to the set rather
than excluded; no fault is raised. -/
theorem c6_amended_missing_timing_included (cls : Classifier)
    (byURL : List (String × Summary)) (en pn u : String) (s : Summary)
    (ps : FacadableProductSummary)
    (hnd : (byURL.map Prod.fst).Nodup)
    (hmem : (u, s) ∈ byURL)
    (hinc : isIncidentalRecord cls en u = true)
    (h1 : lookupPS (pass1 cls byURL) en pn = some ps)
    (hnan : s.firstStartTime = JsNum.nan ∨ ps.cutoffTime = JsNum.nan) :
    ∃ ps', lookupPS (pass2 cls byURL) en pn = some ps' ∧
      mapGet? ps'.urlSummaries u = some s := by
  obtain ⟨ps', hfold, _, _, hmemchar⟩ := foldl_pass2Local_some cls en byURL ps
  refine ⟨ps', ?_, ?_⟩
  · rw [lookupPS_pass2, h1]
    exact hfold
  · have hlt : jsLt s.firstStartTime ps.cutoffTime = false := by
      rcases hnan with h | h
      · rw [h]; exact jsLt_nan_left _
      · rw [h]; exact jsLt_nan_right _
    have hpred : (fun r : String × Summary =>
        isIncidentalRecord cls en r.1 &&
          !jsLt r.2.firstStartTime ps.cutoffTime) (u, s) = true := by
      simp [hinc, hlt]
    have hfm : (u, s) ∈ byURL.filter (fun r =>
        isIncidentalRecord cls en r.1 &&
          !jsLt r.2.firstStartTime ps.cutoffTime) :=
      List.mem_filter.mpr ⟨hmem, hpred⟩
    rw [hmemchar u]
    exact lastAt_eq_some_of_nodup u s _ _ (nodup_keys_filter hnd) hfm

/-- Witness for the amended C6 at the counterexample's input. -/
theorem c6_amended_witness :
    ∃ ps', lookupPS (pass2 exCls
        [("pA", ⟨4000, 0, 0, .val 200, .val 201⟩),
         ("xA", ⟨8000, 0, 0, .nan, .val 301⟩)]) "A" "PA" = some ps' ∧
      mapGet? ps'.urlSummaries "xA" = some ⟨8000, 0, 0, .nan, .val 301⟩ :=
  c6_amended_missing_timing_included exCls
    [("pA", ⟨4000, 0, 0, .val 200, .val 201⟩),
     ("xA", ⟨8000, 0, 0, .nan, .val 301⟩)] "A" "PA" "xA"
    ⟨8000, 0, 0, .nan, .val 301⟩
    (FacadableProductSummary.mk exProdA (JsNum.val 201)
      [("pA", ⟨4000, 0, 0, .val 200, .val 201⟩)])
    (by decide) (by decide) (by decide) (by decide) (Or.inl (by decide))

/-! ## Aggregator characterization -/

theorem foldl_add_map {α : Type} (f : α → ℚ) :
    ∀ (l : List α) (a : ℚ),
      l.foldl (fun acc x => acc + f x) a = a + (l.map f).sum := by
  intro l
  induction l with
  | nil => intro a; simp
  | cons x t ih =>
      intro a
      simp only [List.foldl_cons, List.map_cons, List.sum_cons, ih]
      ring

theorem buildOpportunity_ok_spec (ps : FacadableProductSummary) (f : Facade)
    (fs : List Facade) (hf : ps.product.facades = f :: fs) :
    buildOpportunity ps = Except.ok
      { productName := ps.product.name
        facadeName := f.name
        facadeRepo := f.repo
        transferSize := (ps.urlSummaries.map (fun e => e.2.transferSize)).sum
        blockingTime := (ps.urlSummaries.map (fun e => e.2.blockingTime)).sum
        subItems := sortDesc (ps.urlSummaries.map mkItem) } := by
  unfold buildOpportunity
  rw [hf]
  simp only [foldl_add_map, List.map_map, zero_add]
  rfl

/-- Pass 1 creates an attribution set only from a record whose product has at
least one facade, so every set's product has a non-empty facade list. -/
theorem pass1Local_facades (cls : Classifier) (en pn : String)
    (o : Option FacadableProductSummary) (r : String × Summary)
    (ho : ∀ ps, o = some ps → ps.product.facades ≠ []) :
    ∀ ps, pass1Local cls en pn o r = some ps → ps.product.facades ≠ [] := by
  intro ps h
  unfold pass1Local at h
  cases hprod : cls.getProduct r.1 with
  | none =>
      rw [hprod] at h
      exact ho ps h
  | some p =>
      rw [hprod] at h
      by_cases hr : isProductRecord cls en pn r.1
      · simp only [hr, if_true] at h
        cases h
        cases ho' : o with
        | some ps₀ =>
            have := ho ps₀ ho'
            simpa [p1Update, ho'] using this
        | none =>
            unfold isProductRecord at hr
            rw [hprod] at hr
            simp only [Bool.and_eq_true] at hr
            have hfac := hr.2.1
            simp only [p1Update, ho', Option.getD_none]
            simpa [List.isEmpty_iff] using hfac
      · simp only [Bool.not_eq_true] at hr
        simp only [hr, Bool.false_eq_true, if_false] at h
        exact ho ps h

theorem pass1_entry_facades (cls : Classifier) (byURL : List (String × Summary))
    (en pn : String) (ps : FacadableProductSummary)
    (h : lookupPS (pass1 cls byURL) en pn = some ps) :
    ps.product.facades ≠ [] := by
  rw [lookupPS_pass1] at h
  have main : ∀ (l : List (String × Summary))
      (o : Option FacadableProductSummary),
      (∀ ps₀, o = some ps₀ → ps₀.product.facades ≠ []) →
      ∀ ps₀, l.foldl (pass1Local cls en pn) o = some ps₀ →
        ps₀.product.facades ≠ [] := by
    intro l
    induction l with
    | nil => intro o ho; exact ho
    | cons r t ih =>
        intro o ho
        exact ih _ (pass1Local_facades cls en pn o r ho)
  exact main byURL none (by intro ps₀ hh; cases hh) ps h

/-! ## Claim C4 -/

/-- C4: a non-product record whose start time satisfies the cutoff condition of
two sibling products' sets under the same entity is added as a member of both
sets, and its transfer size and blocking time are counted in each product's
totals (the totals are the sums over all members, our record included). -/
theorem c4_double_counting (cls : Classifier)
    (byURL : List (String × Summary)) (en pn₁ pn₂ u : String) (s : Summary)
    (ps₁ ps₂ : FacadableProductSummary)
    (_hne : pn₁ ≠ pn₂)
    (hnd : (byURL.map Prod.fst).Nodup)
    (hmem : (u, s) ∈ byURL)
    (hinc : isIncidentalRecord cls en u = true)
    (h1 : lookupPS (pass1 cls byURL) en pn₁ = some ps₁)
    (h2 : lookupPS (pass1 cls byURL) en pn₂ = some ps₂)
    (hq1 : jsLt s.firstStartTime ps₁.cutoffTime = false)
    (hq2 : jsLt s.firstStartTime ps₂.cutoffTime = false) :
    ∃ ps₁' ps₂' opp₁ opp₂,
      lookupPS (pass2 cls byURL) en pn₁ = some ps₁' ∧
      lookupPS (pass2 cls byURL) en pn₂ = some ps₂' ∧
      mapGet? ps₁'.urlSummaries u = some s ∧
      mapGet? ps₂'.urlSummaries u = some s ∧
      buildOpportunity ps₁' = Except.ok opp₁ ∧
      buildOpportunity ps₂' = Except.ok opp₂ ∧
      opp₁.transferSize = (ps₁'.urlSummaries.map (fun e => e.2.transferSize)).sum ∧
      opp₂.transferSize = (ps₂'.urlSummaries.map (fun e => e.2.transferSize)).sum ∧
      opp₁.blockingTime = (ps₁'.urlSummaries.map (fun e => e.2.blockingTime)).sum ∧
      opp₂.blockingTime = (ps₂'.urlSummaries.map (fun e => e.2.blockingTime)).sum := by
  have key : ∀ (pn : String) (ps : FacadableProductSummary),
      lookupPS (pass1 cls byURL) en pn = some ps →
      jsLt s.firstStartTime ps.cutoffTime = false →
      ∃ ps' opp, lookupPS (pass2 cls byURL) en pn = some ps' ∧
        mapGet? ps'.urlSummaries u = some s ∧
        buildOpportunity ps' = Except.ok opp ∧
        opp.transferSize = (ps'.urlSummaries.map (fun e => e.2.transferSize)).sum ∧
        opp.blockingTime = (ps'.urlSummaries.map (fun e => e.2.blockingTime)).sum := by
    intro pn ps h hq
    obtain ⟨ps', hfold, hprodeq, hcuteq, hmemchar⟩ :=
      foldl_pass2Local_some cls en byURL ps
    have hfacades : ps'.product.facades ≠ [] := by
      rw [hprodeq]
      exact pass1_entry_facades cls byURL en pn ps h
    obtain ⟨f, fs, hf⟩ : ∃ f fs, ps'.product.facades = f :: fs := by
      cases hc : ps'.product.facades with
      | nil => exact absurd hc hfacades
      | cons f fs => exact ⟨f, fs, rfl⟩
    have hpred : (fun r : String × Summary =>
        isIncidentalRecord cls en r.1 &&
          !jsLt r.2.firstStartTime ps.cutoffTime) (u, s) = true := by
      simp [hinc, hq]
    have hfm : (u, s) ∈ byURL.filter (fun r =>
        isIncidentalRecord cls en r.1 &&
          !jsLt r.2.firstStartTime ps.cutoffTime) :=
      List.mem_filter.mpr ⟨hmem, hpred⟩
    refine ⟨ps', _, ?_, ?_, buildOpportunity_ok_spec ps' f fs hf, rfl, rfl⟩
    · rw [lookupPS_pass2, h]
      exact hfold
    · rw [hmemchar u]
      exact lastAt_eq_some_of_nodup u s _ _ (nodup_keys_filter hnd) hfm
  obtain ⟨ps₁', opp₁, ha1, ha2, ha3, ha4, ha5⟩ := key pn₁ ps₁ h1 hq1
  obtain ⟨ps₂', opp₂, hb1, hb2, hb3, hb4, hb5⟩ := key pn₂ ps₂ h2 hq2
  exact ⟨ps₁', ps₂', opp₁, opp₂, ha1, hb1, ha2, hb2, ha3, hb3, ha4, hb4,
    ha5, hb5⟩

/-- Witness for C4 at a concrete input: `xA` (start 300) qualifies for both
sibling sets `PA` (cutoff 201) and `PA2` (cutoff 211) and is counted in both
totals. -/
theorem c4_witness :
    ∃ ps₁' ps₂' opp₁ opp₂,
      lookupPS (pass2 exCls
        [("pA", ⟨4000, 0, 0, .val 200, .val 201⟩),
         ("qA", ⟨3000, 0, 0, .val 210, .val 211⟩),
         ("xA", ⟨8000, 0, 0, .val 300, .val 301⟩)]) "A" "PA" = some ps₁' ∧
      lookupPS (pass2 exCls
        [("pA", ⟨4000, 0, 0, .val 200, .val 201⟩),
         ("qA", ⟨3000, 0, 0, .val 210, .val 211⟩),
         ("xA", ⟨8000, 0, 0, .val 300, .val 301⟩)]) "A" "PA2" = some ps₂' ∧
      mapGet? ps₁'.urlSummaries "xA" = some ⟨8000, 0, 0, .val 300, .val 301⟩ ∧
      mapGet? ps₂'.urlSummaries "xA" = some ⟨8000, 0, 0, .val 300, .val 301⟩ ∧
      buildOpportunity ps₁' = Except.ok opp₁ ∧
      buildOpportunity ps₂' = Except.ok opp₂ ∧
      opp₁.transferSize = (ps₁'.urlSummaries.map (fun e => e.2.transferSize)).sum ∧
      opp₂.transferSize = (ps₂'.urlSummaries.map (fun e => e.2.transferSize)).sum ∧
      opp₁.blockingTime = (ps₁'.urlSummaries.map (fun e => e.2.blockingTime)).sum ∧
      opp₂.blockingTime = (ps₂'.urlSummaries.map (fun e => e.2.blockingTime)).sum :=
  c4_double_counting exCls
    [("pA", ⟨4000, 0, 0, .val 200, .val 201⟩),
     ("qA", ⟨3000, 0, 0, .val 210, .val 211⟩),
     ("xA", ⟨8000, 0, 0, .val 300, .val 301⟩)] "A" "PA" "PA2" "xA"
    ⟨8000, 0, 0, .val 300, .val 301⟩
    (FacadableProductSummary.mk exProdA (JsNum.val 201)
      [("pA", ⟨4000, 0, 0, .val 200, .val 201⟩)])
    (FacadableProductSummary.mk exProdA2 (JsNum.val 211)
      [("qA", ⟨3000, 0, 0, .val 210, .val 211⟩)])
    (by decide) (by decide) (by decide) (by decide) (by decide) (by decide)
    (by decide) (by decide)

/-! ## Sorting lemmas (stable descending sort of sub-items) -/

theorem insertDesc_perm (x : OpportunityItem) :
    ∀ (l : List OpportunityItem), (insertDesc x l).Perm (x :: l) := by
  intro l
  induction l with
  | nil => simp [insertDesc]
  | cons y ys ih =>
      by_cases h : y.transferSize ≤ x.transferSize
      · simp [insertDesc, h]
      · simp only [insertDesc, if_neg h]
        exact (ih.cons y).trans (List.Perm.swap x y ys)

theorem sortDesc_perm : ∀ (l : List OpportunityItem), (sortDesc l).Perm l := by
  intro l
  induction l with
  | nil => simp [sortDesc]
  | cons x xs ih => exact (insertDesc_perm x (sortDesc xs)).trans (ih.cons x)

theorem mem_insertDesc {x b : OpportunityItem} {l : List OpportunityItem}
    (h : b ∈ insertDesc x l) : b = x ∨ b ∈ l :=
  List.mem_cons.mp ((insertDesc_perm x l).mem_iff.mp h)

theorem pairwise_insertDesc (x : OpportunityItem) :
    ∀ (l : List OpportunityItem),
      l.Pairwise (fun a b => b.transferSize ≤ a.transferSize) →
      (insertDesc x l).Pairwise (fun a b => b.transferSize ≤ a.transferSize) := by
  intro l
  induction l with
  | nil => intro _; simp [insertDesc]
  | cons y ys ih =>
      intro h
      have hy := (List.pairwise_cons.mp h).1
      have hys := (List.pairwise_cons.mp h).2
      by_cases hc : y.transferSize ≤ x.transferSize
      · simp only [insertDesc, if_pos hc]
        refine List.pairwise_cons.mpr ⟨?_, h⟩
        intro b hb
        rcases List.mem_cons.mp hb with rfl | hb'
        · exact hc
        · exact le_trans (hy b hb') hc
      · simp only [insertDesc, if_neg hc]
        refine List.pairwise_cons.mpr ⟨?_, ih hys⟩
        intro b hb
        rcases mem_insertDesc hb with rfl | hb'
        · exact le_of_lt (lt_of_not_le hc)
        · exact hy b hb'

theorem sortDesc_pairwise : ∀ (l : List OpportunityItem),
    (sortDesc l).Pairwise (fun a b => b.transferSize ≤ a.transferSize) := by
  intro l
  induction l with
  | nil => simp [sortDesc]
  | cons x xs ih => exact pairwise_insertDesc x (sortDesc xs) ih

theorem filter_insertDesc (x : OpportunityItem) (k : ℚ) :
    ∀ (l : List OpportunityItem),
      (insertDesc x l).filter (fun i => decide (i.transferSize = k)) =
        if x.transferSize = k then
          x :: l.filter (fun i => decide (i.transferSize = k))
        else l.filter (fun i => decide (i.transferSize = k)) := by
  intro l
  induction l with
  | nil =>
      by_cases hx : x.transferSize = k <;> simp [insertDesc, hx]
  | cons y ys ih =>
      by_cases hc : y.transferSize ≤ x.transferSize
      · simp only [insertDesc, if_pos hc]
        by_cases hx : x.transferSize = k <;> simp [List.filter_cons, hx]
      · simp only [insertDesc, if_neg hc]
        rw [List.filter_cons, List.filter_cons]
        rw [ih]
        by_cases hx : x.transferSize = k
        · have hyk : ¬(y.transferSize = k) := by
            intro hh
            exact hc (by rw [hh, ← hx])
          simp [hx, hyk]
        · simp [hx]

theorem sortDesc_filter_stable (k : ℚ) : ∀ (l : List OpportunityItem),
    (sortDesc l).filter (fun i => decide (i.transferSize = k)) =
      l.filter (fun i => decide (i.transferSize = k)) := by
  intro l
  induction l with
  | nil => rfl
  | cons x xs ih =>
      have := filter_insertDesc x k (sortDesc xs)
      by_cases hx : x.transferSize = k
      · rw [sortDesc, this, if_pos hx, ih, List.filter_cons]
        simp [hx]
      · rw [sortDesc, this, if_neg hx, ih, List.filter_cons]
        simp [hx]

/-! ## Global facade invariant and audit success -/

theorem mem_mapSet {α : Type} {x : String × α} :
    ∀ {m : List (String × α)} {k : String} {v : α},
      x ∈ mapSet m k v → x ∈ m ∨ x.2 = v := by
  intro m
  induction m with
  | nil =>
      intro k v h
      simp [mapSet] at h
      exact Or.inr (by rw [h])
  | cons e rest ih =>
      intro k v h
      by_cases he : e.1 = k
      · simp only [mapSet, if_pos he] at h
        rcases List.mem_cons.mp h with rfl | h'
        · exact Or.inr rfl
        · exact Or.inl (List.mem_cons_of_mem _ h')
      · simp only [mapSet, if_neg he] at h
        rcases List.mem_cons.mp h with rfl | h'
        · exact Or.inl (List.mem_cons_self _ _)
        · rcases ih h' with h'' | h''
          · exact Or.inl (List.mem_cons_of_mem _ h'')
          · exact Or.inr h''

theorem incAdd_product (ps : FacadableProductSummary) (r : String × Summary) :
    (incAdd ps r).product = ps.product := by
  unfold incAdd
  split <;> rfl

theorem pass1Step_good (cls : Classifier) (es : EntitySummaries)
    (r : String × Summary)
    (h : ∀ e ∈ es, ∀ pe ∈ e.2, pe.2.product.facades ≠ []) :
    ∀ e ∈ pass1Step cls es r, ∀ pe ∈ e.2, pe.2.product.facades ≠ [] := by
  unfold pass1Step
  cases hent : cls.getEntity r.1 with
  | none => exact h
  | some entity =>
      by_cases hfp : cls.isFirstParty r.1
      · simp only [hfp, if_true]
        exact h
      · simp only [hfp, if_false]
        intro e he pe hpe
        have hpss : ∀ pe₀ ∈ (mapGet? es entity.name).getD [],
            pe₀.2.product.facades ≠ [] := by
          intro pe₀ hpe₀
          cases hget : mapGet? es entity.name with
          | none => rw [hget] at hpe₀; simp at hpe₀
          | some pss₀ =>
              rw [hget] at hpe₀
              exact h (entity.name, pss₀) (mem_of_mapGet?_eq_some hget) pe₀ hpe₀
        rcases mem_mapSet he with he' | he'
        · exact h e he' pe hpe
        · rw [he'] at hpe
          cases hprod : cls.getProduct r.1 with
          | none =>
              rw [hprod] at hpe
              exact hpss pe hpe
          | some product =>
              rw [hprod] at hpe
              by_cases hfac : product.facades.isEmpty
              · simp only [hfac, if_true] at hpe
                exact hpss pe hpe
              · simp only [Bool.not_eq_true] at hfac
                simp only [hfac, Bool.false_eq_true, if_false] at hpe
                rcases mem_mapSet hpe with hpe' | hpe'
                · exact hpss pe hpe'
                · rw [hpe']
                  cases hget2 : mapGet? ((mapGet? es entity.name).getD [])
                      product.name with
                  | none =>
                      simp only [hget2, Option.getD_none]
                      simpa [List.isEmpty_eq_false] using hfac
                  | some ps₀ =>
                      simp only [hget2, Option.getD_some]
                      exact hpss (product.name, ps₀) (mem_of_mapGet?_eq_some hget2)

theorem pass2Step_good (cls : Classifier) (es : EntitySummaries)
    (r : String × Summary)
    (h : ∀ e ∈ es, ∀ pe ∈ e.2, pe.2.product.facades ≠ []) :
    ∀ e ∈ pass2Step cls es r, ∀ pe ∈ e.2, pe.2.product.facades ≠ [] := by
  unfold pass2Step
  cases hent : cls.getEntity r.1 with
  | none => exact h
  | some entity =>
      by_cases hfp : cls.isFirstParty r.1
      · simp only [hfp, if_true]
        exact h
      · simp only [hfp, if_false]
        intro e he pe hpe
        have hpss : ∀ pe₀ ∈ (mapGet? es entity.name).getD [],
            pe₀.2.product.facades ≠ [] := by
          intro pe₀ hpe₀
          cases hget : mapGet? es entity.name with
          | none => rw [hget] at hpe₀; simp at hpe₀
          | some pss₀ =>
              rw [hget] at hpe₀
              exact h (entity.name, pss₀) (mem_of_mapGet?_eq_some hget) pe₀ hpe₀
        have hmapped : ∀ pe₀ ∈ ((mapGet? es entity.name).getD []).map
            (fun e₀ => (e₀.1, incAdd e₀.2 r)), pe₀.2.product.facades ≠ [] := by
          intro pe₀ hpe₀
          obtain ⟨e₀, he₀, rfl⟩ := List.mem_map.mp hpe₀
          rw [incAdd_product]
          exact hpss e₀ he₀
        rcases mem_mapSet he with he' | he'
        · exact h e he' pe hpe
        · rw [he'] at hpe
          cases hprod : cls.getProduct r.1 with
          | none =>
              rw [hprod] at hpe
              exact hmapped pe hpe
          | some product =>
              rw [hprod] at hpe
              by_cases hfac : product.facades.isEmpty
              · simp only [hfac, if_true] at hpe
                exact hmapped pe hpe
              · simp only [Bool.not_eq_true] at hfac
                simp only [hfac, Bool.false_eq_true, if_false] at hpe
                exact hpss pe hpe

theorem summaries_facades_ne_nil (cls : Classifier)
    (byURL : List (String × Summary)) :
    ∀ ps ∈ getFacadableProductSummaries cls byURL,
      ps.product.facades ≠ [] := by
  have good1 : ∀ (l : List (String × Summary)) (es : EntitySummaries),
      (∀ e ∈ es, ∀ pe ∈ e.2, pe.2.product.facades ≠ []) →
      ∀ e ∈ l.foldl (pass1Step cls) es, ∀ pe ∈ e.2,
        pe.2.product.facades ≠ [] := by
    intro l
    induction l with
    | nil => intro es h; exact h
    | cons r t ih => intro es h; exact ih _ (pass1Step_good cls es r h)
  have good2 : ∀ (l : List (String × Summary)) (es : EntitySummaries),
      (∀ e ∈ es, ∀ pe ∈ e.2, pe.2.product.facades ≠ []) →
      ∀ e ∈ l.foldl (pass2Step cls) es, ∀ pe ∈ e.2,
        pe.2.product.facades ≠ [] := by
    intro l
    induction l with
    | nil => intro es h; exact h
    | cons r t ih => intro es h; exact ih _ (pass2Step_good cls es r h)
  have hg : ∀ e ∈ pass2 cls byURL, ∀ pe ∈ e.2,
      pe.2.product.facades ≠ [] :=
    good2 byURL (pass1 cls byURL)
      (good1 byURL [] (by intro e he; simp at he))
  intro ps hps
  unfold getFacadableProductSummaries at hps
  obtain ⟨l', hl', hmem⟩ := List.mem_flatten.mp hps
  obtain ⟨e, he, rfl⟩ := List.mem_map.mp hl'
  obtain ⟨pe, hpe, rfl⟩ := List.mem_map.mp hmem
  exact hg e he pe hpe

theorem buildResults_ok (l : List FacadableProductSummary)
    (h : ∀ ps ∈ l, ps.product.facades ≠ []) :
    ∃ res, buildResults l = Except.ok res ∧
      res.length = l.length ∧
      res.map (fun o => o.productName) = l.map (fun ps => ps.product.name) ∧
      res.map (fun o => o.transferSize) =
        l.map (fun ps => (ps.urlSummaries.map (fun e => e.2.transferSize)).sum) ∧
      res.map (fun o => o.blockingTime) =
        l.map (fun ps => (ps.urlSummaries.map (fun e => e.2.blockingTime)).sum) := by
  induction l with
  | nil => exact ⟨[], rfl, rfl, rfl, rfl, rfl⟩
  | cons ps t ih =>
      obtain ⟨res, hres, hlen, hnames, hts, hbt⟩ :=
        ih (fun ps₀ h₀ => h ps₀ (List.mem_cons_of_mem _ h₀))
      obtain ⟨f, fs, hf⟩ : ∃ f fs, ps.product.facades = f :: fs := by
        cases hc : ps.product.facades with
        | nil => exact absurd hc (h ps (List.mem_cons_self _ _))
        | cons f fs => exact ⟨f, fs, rfl⟩
      refine ⟨{ productName := ps.product.name
                facadeName := f.name
                facadeRepo := f.repo
                transferSize :=
                  (ps.urlSummaries.map (fun e => e.2.transferSize)).sum
                blockingTime :=
                  (ps.urlSummaries.map (fun e => e.2.blockingTime)).sum
                subItems := sortDesc (ps.urlSummaries.map mkItem) } :: res,
              ?_, ?_, ?_, ?_, ?_⟩
      · rw [buildResults, buildOpportunity_ok_spec ps f fs hf]
        rw [hres]
        rfl
      · simp [hlen]
      · simp [hnames]
      · simp [hts]
      · simp [hbt]

theorem audit_success (cls : Classifier) (byURL : List (String × Summary)) :
    ∃ res,
      buildResults (getFacadableProductSummaries cls byURL) =
        Except.ok res ∧
      res.length = (getFacadableProductSummaries cls byURL).length ∧
      res.map (fun o => o.productName) =
        (getFacadableProductSummaries cls byURL).map
          (fun ps => ps.product.name) ∧
      res.map (fun o => o.transferSize) =
        (getFacadableProductSummaries cls byURL).map
          (fun ps => (ps.urlSummaries.map (fun e => e.2.transferSize)).sum) ∧
      res.map (fun o => o.blockingTime) =
        (getFacadableProductSummaries cls byURL).map
          (fun ps => (ps.urlSummaries.map (fun e => e.2.blockingTime)).sum) ∧
      audit cls byURL = Except.ok
        (if res.isEmpty then AuditResult.notApplicable
         else AuditResult.failed res
           ⟨(res.map (fun o => o.transferSize)).sum,
            (res.map (fun o => o.blockingTime)).sum⟩ res.length) := by
  obtain ⟨res, hres, hlen, hnames, hts, hbt⟩ :=
    buildResults_ok (getFacadableProductSummaries cls byURL)
      (summaries_facades_ne_nil cls byURL)
  refine ⟨res, hres, hlen, hnames, hts, hbt, ?_⟩
  unfold audit
  simp only [hres, foldl_add_map, zero_add, Bind.bind, Except.bind]
  by_cases he : res.isEmpty
  · have hnil : res = [] := List.isEmpty_iff.mp he
    simp [he, hnil, pure, Except.pure]
  · have hnil : ¬(res = []) := by simpa [List.isEmpty_iff] using he
    simp [he, hnil, pure, Except.pure]

/-! ## Claim C3 -/

/-- C3: the audit returns the not-applicable/passing result (`score 1`) exactly
when there are no attribution sets (all URLs first-party/unclassifiable, or no
classified product has a facade); otherwise it returns the failing result
(score 0) carrying one opportunity per set and the summary totals (the totals
equal the sums of the listed opportunities' totals). -/
theorem c3_not_applicable_iff_empty (cls : Classifier)
    (byURL : List (String × Summary)) :
    ∃ r, audit cls byURL = Except.ok r ∧
      (r = AuditResult.notApplicable ↔
        getFacadableProductSummaries cls byURL = []) ∧
      r.score =
        (if getFacadableProductSummaries cls byURL = [] then 1 else 0) ∧
      r.opportunityCount = (getFacadableProductSummaries cls byURL).length ∧
      r.wastedBytesOf = r.oppTransferSizes.sum ∧
      r.wastedMsOf = r.oppBlockingTimes.sum := by
  obtain ⟨res, hres, hlen, hnames, hts, hbt, haud⟩ := audit_success cls byURL
  by_cases he : res.isEmpty
  · have hnil : res = [] := List.isEmpty_iff.mp he
    have hsnil : getFacadableProductSummaries cls byURL = [] := by
      rw [← List.length_eq_zero]
      rw [← hlen, hnil]
      rfl
    simp only [he, if_true] at haud
    exact ⟨AuditResult.notApplicable, haud,
      by simp [hsnil],
      by simp [hsnil, AuditResult.score],
      by simp [hsnil, AuditResult.opportunityCount],
      by simp [AuditResult.wastedBytesOf, AuditResult.oppTransferSizes],
      by simp [AuditResult.wastedMsOf, AuditResult.oppBlockingTimes]⟩
  · have hnil : res ≠ [] := by simpa [List.isEmpty_iff] using he
    have hsne : getFacadableProductSummaries cls byURL ≠ [] := by
      intro hh
      apply hnil
      rw [← List.length_eq_zero, hlen, hh]
      rfl
    have he' : res.isEmpty = false := by simpa using he
    simp only [he', Bool.false_eq_true, if_false] at haud
    refine ⟨_, haud, ?_, ?_, ?_, ?_, ?_⟩
    · simp [hsne]
    · simp [hsne, AuditResult.score]
    · simpa [AuditResult.opportunityCount] using hlen
    · simp [AuditResult.wastedBytesOf, AuditResult.oppTransferSizes]
    · simp [AuditResult.wastedMsOf, AuditResult.oppBlockingTimes]

/-! ## Claim C10 -/

/-- C10: every attribution set reaching the aggregator has a product with at
least one facade (Pass 1 only creates sets behind the `product.facades.length`
guard), so `product.facades[0]` never goes out of bounds: the audit's error
branch is unreachable and it always returns a result. -/
theorem c10_facade_access_safe (cls : Classifier)
    (byURL : List (String × Summary)) :
    (getFacadableProductSummaries cls byURL).all
      (fun ps => !ps.product.facades.isEmpty) = true ∧
    ∃ r, audit cls byURL = Except.ok r := by
  constructor
  · rw [List.all_eq_true]
    intro ps hps
    have := summaries_facades_ne_nil cls byURL ps hps
    simpa [List.isEmpty_iff] using this
  · obtain ⟨res, _, _, _, _, _, haud⟩ := audit_success cls byURL
    exact ⟨_, haud⟩

/-! ## Claim C8 -/

theorem buildOpportunity_ok_subItems (ps : FacadableProductSummary)
    (opp : Opportunity) (h : buildOpportunity ps = Except.ok opp) :
    opp.subItems = sortDesc (ps.urlSummaries.map mkItem) := by
  cases hf : ps.product.facades with
  | nil =>
      have herr : buildOpportunity ps =
          Except.error "TypeError: product.facades[0] is undefined" := by
        unfold buildOpportunity
        rw [hf]
      rw [herr] at h
      cases h
  | cons f fs =>
      rw [buildOpportunity_ok_spec ps f fs hf] at h
      cases h
      rfl

/-- C8: an opportunity's sub-item list is the set's members sorted by transfer
size in descending order, with members of equal transfer size kept in their
insertion/discovery order: it is a permutation of the member rows, pairwise
non-increasing in `transferSize`, and for every size the subsequence of rows of
that size is unchanged (the stability of `Array.prototype.sort`, ES2019). -/
theorem c8_subitems_sorted_stable (ps : FacadableProductSummary)
    (opp : Opportunity) (h : buildOpportunity ps = Except.ok opp) :
    opp.subItems.Perm (ps.urlSummaries.map mkItem) ∧
    opp.subItems.Pairwise (fun a b => b.transferSize ≤ a.transferSize) ∧
    ∀ k : ℚ, opp.subItems.filter (fun i => decide (i.transferSize = k)) =
      (ps.urlSummaries.map mkItem).filter
        (fun i => decide (i.transferSize = k)) := by
  rw [buildOpportunity_ok_subItems ps opp h]
  exact ⟨sortDesc_perm _, sortDesc_pairwise _,
    fun k => sortDesc_filter_stable k _⟩

/-- Witness for C8 at a concrete attribution set with a transfer-size tie
(members of sizes 5, 7, 5): the sorted sub-items are the 7-byte row followed by
the two 5-byte rows in their original order. -/
theorem c8_witness :
    (Opportunity.mk "PA" "FA" "https://github.com/example/fa"
        (((FacadableProductSummary.mk exProdA (JsNum.val 201)
            [("u1", ⟨5, 0, 0, .val 1, .val 2⟩),
             ("u2", ⟨7, 0, 0, .val 1, .val 2⟩),
             ("u3", ⟨5, 1, 0, .val 3, .val 4⟩)]).urlSummaries.map
          (fun e => e.2.transferSize)).sum)
        (((FacadableProductSummary.mk exProdA (JsNum.val 201)
            [("u1", ⟨5, 0, 0, .val 1, .val 2⟩),
             ("u2", ⟨7, 0, 0, .val 1, .val 2⟩),
             ("u3", ⟨5, 1, 0, .val 3, .val 4⟩)]).urlSummaries.map
          (fun e => e.2.blockingTime)).sum)
        (sortDesc ((FacadableProductSummary.mk exProdA (JsNum.val 201)
            [("u1", ⟨5, 0, 0, .val 1, .val 2⟩),
             ("u2", ⟨7, 0, 0, .val 1, .val 2⟩),
             ("u3", ⟨5, 1, 0, .val 3, .val 4⟩)]).urlSummaries.map
          mkItem))).subItems.Perm
      ((FacadableProductSummary.mk exProdA (JsNum.val 201)
          [("u1", ⟨5, 0, 0, .val 1, .val 2⟩),
           ("u2", ⟨7, 0, 0, .val 1, .val 2⟩),
           ("u3", ⟨5, 1, 0, .val 3, .val 4⟩)]).urlSummaries.map mkItem) ∧
    (Opportunity.mk "PA" "FA" "https://github.com/example/fa"
        (((FacadableProductSummary.mk exProdA (JsNum.val 201)
            [("u1", ⟨5, 0, 0, .val 1, .val 2⟩),
             ("u2", ⟨7, 0, 0, .val 1, .val 2⟩),
             ("u3", ⟨5, 1, 0, .val 3, .val 4⟩)]).urlSummaries.map
          (fun e => e.2.transferSize)).sum)
        (((FacadableProductSummary.mk exProdA (JsNum.val 201)
            [("u1", ⟨5, 0, 0, .val 1, .val 2⟩),
             ("u2", ⟨7, 0, 0, .val 1, .val 2⟩),
             ("u3", ⟨5, 1, 0, .val 3, .val 4⟩)]).urlSummaries.map
          (fun e => e.2.blockingTime)).sum)
        (sortDesc ((FacadableProductSummary.mk exProdA (JsNum.val 201)
            [("u1", ⟨5, 0, 0, .val 1, .val 2⟩),
             ("u2", ⟨7, 0, 0, .val 1, .val 2⟩),
             ("u3", ⟨5, 1, 0, .val 3, .val 4⟩)]).urlSummaries.map
          mkItem))).subItems.Pairwise
      (fun a b => b.transferSize ≤ a.transferSize) ∧
    ∀ k : ℚ,
      (Opportunity.mk "PA" "FA" "https://github.com/example/fa"
          (((FacadableProductSummary.mk exProdA (JsNum.val 201)
              [("u1", ⟨5, 0, 0, .val 1, .val 2⟩),
               ("u2", ⟨7, 0, 0, .val 1, .val 2⟩),
               ("u3", ⟨5, 1, 0, .val 3, .val 4⟩)]).urlSummaries.map
            (fun e => e.2.transferSize)).sum)
          (((FacadableProductSummary.mk exProdA (JsNum.val 201)
              [("u1", ⟨5, 0, 0, .val 1, .val 2⟩),
               ("u2", ⟨7, 0, 0, .val 1, .val 2⟩),
               ("u3", ⟨5, 1, 0, .val 3, .val 4⟩)]).urlSummaries.map
            (fun e => e.2.blockingTime)).sum)
          (sortDesc ((FacadableProductSummary.mk exProdA (JsNum.val 201)
              [("u1", ⟨5, 0, 0, .val 1, .val 2⟩),
               ("u2", ⟨7, 0, 0, .val 1, .val 2⟩),
               ("u3", ⟨5, 1, 0, .val 3, .val 4⟩)]).urlSummaries.map
            mkItem))).subItems.filter (fun i => decide (i.transferSize = k)) =
        ((FacadableProductSummary.mk exProdA (JsNum.val 201)
            [("u1", ⟨5, 0, 0, .val 1, .val 2⟩),
             ("u2", ⟨7, 0, 0, .val 1, .val 2⟩),
             ("u3", ⟨5, 1, 0, .val 3, .val 4⟩)]).urlSummaries.map
          mkItem).filter (fun i => decide (i.transferSize = k)) :=
  c8_subitems_sorted_stable
    (FacadableProductSummary.mk exProdA (JsNum.val 201)
      [("u1", ⟨5, 0, 0, .val 1, .val 2⟩),
       ("u2", ⟨7, 0, 0, .val 1, .val 2⟩),
       ("u3", ⟨5, 1, 0, .val 3, .val 4⟩)]) _
    (buildOpportunity_ok_spec _ ⟨"FA", "https://github.com/example/fa"⟩ [] rfl)

/-! ## Claim C5 -/

/-- C5 counterexample: a 100-byte member (< 1024) is NOT removed from the
individually-listed sub-items and no synthetic "Other resources" row exists:
the audit performs no condensation at all. -/
theorem c5_counterexample :
    getFacadableProductSummaries exCls
      [("pA", ⟨4000, 0, 0, .val 200, .val 201⟩),
       ("xA", ⟨100, 0, 0, .val 300, .val 301⟩)] =
      [⟨exProdA, JsNum.val 201,
        [("pA", ⟨4000, 0, 0, .val 200, .val 201⟩),
         ("xA", ⟨100, 0, 0, .val 300, .val 301⟩)]⟩] ∧
    buildOpportunity
      (FacadableProductSummary.mk exProdA (JsNum.val 201)
        [("pA", ⟨4000, 0, 0, .val 200, .val 201⟩),
         ("xA", ⟨100, 0, 0, .val 300, .val 301⟩)]) =
      Except.ok
        (Opportunity.mk "PA" "FA" "https://github.com/example/fa"
          ((([("pA", (⟨4000, 0, 0, .val 200, .val 201⟩ : Summary)),
              ("xA", ⟨100, 0, 0, .val 300, .val 301⟩)]).map
            (fun e => e.2.transferSize)).sum)
          ((([("pA", (⟨4000, 0, 0, .val 200, .val 201⟩ : Summary)),
              ("xA", ⟨100, 0, 0, .val 300, .val 301⟩)]).map
            (fun e => e.2.blockingTime)).sum)
          (sortDesc ([("pA", (⟨4000, 0, 0, .val 200, .val 201⟩ : Summary)),
              ("xA", ⟨100, 0, 0, .val 300, .val 301⟩)].map mkItem))) ∧
    sortDesc ([("pA", (⟨4000, 0, 0, .val 200, .val 201⟩ : Summary)),
        ("xA", ⟨100, 0, 0, .val 300, .val 301⟩)].map mkItem) =
      [⟨"pA", 4000, 0, 0, .val 200, .val 201⟩,
       ⟨"xA", 100, 0, 0, .val 300, .val 301⟩] ∧
    (100 : ℚ) < 1024 ∧
    (∀ i ∈ sortDesc ([("pA", (⟨4000, 0, 0, .val 200, .val 201⟩ : Summary)),
        ("xA", ⟨100, 0, 0, .val 300, .val 301⟩)].map mkItem),
      i.url ≠ "Other resources") :=
  ⟨by decide,
   buildOpportunity_ok_spec _ ⟨"FA", "https://github.com/example/fa"⟩ [] rfl,
   by decide, by decide, by decide⟩

/-- C5 amended: no condensation is performed: every member — including those
below 1024 bytes — remains an individually-listed sub-item (the sub-item list
is a permutation of the member rows, one row per member), and no synthetic
"Other resources" row is created (every sub-item's URL is a member URL). -/
theorem c5_amended_no_condensation (ps : FacadableProductSummary)
    (opp : Opportunity) (h : buildOpportunity ps = Except.ok opp) :
    opp.subItems.length = ps.urlSummaries.length ∧
    opp.subItems.Perm (ps.urlSummaries.map mkItem) ∧
    ∀ i ∈ opp.subItems, i.url ∈ ps.urlSummaries.map Prod.fst := by
  rw [buildOpportunity_ok_subItems ps opp h]
  have hperm := sortDesc_perm (ps.urlSummaries.map mkItem)
  refine ⟨by rw [hperm.length_eq, List.length_map], hperm, ?_⟩
  intro i hi
  have hi' : i ∈ ps.urlSummaries.map mkItem := hperm.mem_iff.mp hi
  obtain ⟨e, he, rfl⟩ := List.mem_map.mp hi'
  exact List.mem_map.mpr ⟨e, he, rfl⟩

/-- Witness for the amended C5 at the counterexample's input. -/
theorem c5_amended_witness :
    (Opportunity.mk "PA" "FA" "https://github.com/example/fa"
        ((([("pA", (⟨4000, 0, 0, .val 200, .val 201⟩ : Summary)),
            ("xA", ⟨100, 0, 0, .val 300, .val 301⟩)]).map
          (fun e => e.2.transferSize)).sum)
        ((([("pA", (⟨4000, 0, 0, .val 200, .val 201⟩ : Summary)),
            ("xA", ⟨100, 0, 0, .val 300, .val 301⟩)]).map
          (fun e => e.2.blockingTime)).sum)
        (sortDesc ([("pA", (⟨4000, 0, 0, .val 200, .val 201⟩ : Summary)),
            ("xA", ⟨100, 0, 0, .val 300, .val 301⟩)].map mkItem))).subItems.length =
      (FacadableProductSummary.mk exProdA (JsNum.val 201)
        [("pA", ⟨4000, 0, 0, .val 200, .val 201⟩),
         ("xA", ⟨100, 0, 0, .val 300, .val 301⟩)]).urlSummaries.length ∧
    (Opportunity.mk "PA" "FA" "https://github.com/example/fa"
        ((([("pA", (⟨4000, 0, 0, .val 200, .val 201⟩ : Summary)),
            ("xA", ⟨100, 0, 0, .val 300, .val 301⟩)]).map
          (fun e => e.2.transferSize)).sum)
        ((([("pA", (⟨4000, 0, 0, .val 200, .val 201⟩ : Summary)),
            ("xA", ⟨100, 0, 0, .val 300, .val 301⟩)]).map
          (fun e => e.2.blockingTime)).sum)
        (sortDesc ([("pA", (⟨4000, 0, 0, .val 200, .val 201⟩ : Summary)),
            ("xA", ⟨100, 0, 0, .val 300, .val 301⟩)].map mkItem))).subItems.Perm
      ((FacadableProductSummary.mk exProdA (JsNum.val 201)
        [("pA", ⟨4000, 0, 0, .val 200, .val 201⟩),
         ("xA", ⟨100, 0, 0, .val 300, .val 301⟩)]).urlSummaries.map mkItem) ∧
    ∀ i ∈ (Opportunity.mk "PA" "FA" "https://github.com/example/fa"
        ((([("pA", (⟨4000, 0, 0, .val 200, .val 201⟩ : Summary)),
            ("xA", ⟨100, 0, 0, .val 300, .val 301⟩)]).map
          (fun e => e.2.transferSize)).sum)
        ((([("pA", (⟨4000, 0, 0, .val 200, .val 201⟩ : Summary)),
            ("xA", ⟨100, 0, 0, .val 300, .val 301⟩)]).map
          (fun e => e.2.blockingTime)).sum)
        (sortDesc ([("pA", (⟨4000, 0, 0, .val 200, .val 201⟩ : Summary)),
            ("xA", ⟨100, 0, 0, .val 300, .val 301⟩)].map mkItem))).subItems,
      i.url ∈ (FacadableProductSummary.mk exProdA (JsNum.val 201)
        [("pA", ⟨4000, 0, 0, .val 200, .val 201⟩),
         ("xA", ⟨100, 0, 0, .val 300, .val 301⟩)]).urlSummaries.map Prod.fst :=
  c5_amended_no_condensation
    (FacadableProductSummary.mk exProdA (JsNum.val 201)
      [("pA", ⟨4000, 0, 0, .val 200, .val 201⟩),
       ("xA", ⟨100, 0, 0, .val 300, .val 301⟩)]) _
    (buildOpportunity_ok_spec _ ⟨"FA", "https://github.com/example/fa"⟩ [] rfl)

/-! ## Entity and product ordering (Claim C7) -/

theorem keys_pass1Step (cls : Classifier) (es : EntitySummaries)
    (r : String × Summary) :
    (pass1Step cls es r).map Prod.fst = entStep cls (es.map Prod.fst) r := by
  cases hent : cls.getEntity r.1 with
  | none => simp [pass1Step, entStep, hent]
  | some entity =>
      by_cases hfp : cls.isFirstParty r.1
      · simp [pass1Step, entStep, hent, hfp]
      · simp [pass1Step, entStep, hent, hfp, keys_mapSet]

theorem keys_pass2Step (cls : Classifier) (es : EntitySummaries)
    (r : String × Summary) :
    (pass2Step cls es r).map Prod.fst = entStep cls (es.map Prod.fst) r := by
  cases hent : cls.getEntity r.1 with
  | none => simp [pass2Step, entStep, hent]
  | some entity =>
      by_cases hfp : cls.isFirstParty r.1
      · simp [pass2Step, entStep, hent, hfp]
      · simp [pass2Step, entStep, hent, hfp, keys_mapSet]

theorem keys_foldl_pass1 (cls : Classifier) :
    ∀ (l : List (String × Summary)) (es : EntitySummaries),
      (l.foldl (pass1Step cls) es).map Prod.fst =
        l.foldl (entStep cls) (es.map Prod.fst) := by
  intro l
  induction l with
  | nil => intro es; rfl
  | cons r t ih =>
      intro es
      simp only [List.foldl_cons]
      rw [ih, keys_pass1Step]

theorem keys_foldl_pass2 (cls : Classifier) :
    ∀ (l : List (String × Summary)) (es : EntitySummaries),
      (l.foldl (pass2Step cls) es).map Prod.fst =
        l.foldl (entStep cls) (es.map Prod.fst) := by
  intro l
  induction l with
  | nil => intro es; rfl
  | cons r t ih =>
      intro es
      simp only [List.foldl_cons]
      rw [ih, keys_pass2Step]

theorem mem_entStep (cls : Classifier) {x : String} {acc : List String}
    (r : String × Summary) (h : x ∈ acc) : x ∈ entStep cls acc r := by
  unfold entStep
  cases cls.getEntity r.1 with
  | none => exact h
  | some e =>
      by_cases hfp : cls.isFirstParty r.1
      · simp [hfp, h]
      · by_cases hmem : e.name ∈ acc <;> simp [hfp, hmem, h]

theorem mem_foldl_entStep_mono (cls : Classifier) {x : String} :
    ∀ (l : List (String × Summary)) (acc : List String), x ∈ acc →
      x ∈ l.foldl (entStep cls) acc := by
  intro l
  induction l with
  | nil => intro acc h; exact h
  | cons r t ih => intro acc h; exact ih _ (mem_entStep cls r h)

theorem name_mem_foldl_entStep (cls : Classifier) :
    ∀ (l : List (String × Summary)) (acc : List String)
      (r : String × Summary), r ∈ l →
      ∀ e, cls.getEntity r.1 = some e → cls.isFirstParty r.1 = false →
      e.name ∈ l.foldl (entStep cls) acc := by
  intro l
  induction l with
  | nil => intro acc r h; simp at h
  | cons r₀ t ih =>
      intro acc r hr e hent hfp
      rcases List.mem_cons.mp hr with rfl | hr'
      · simp only [List.foldl_cons]
        apply mem_foldl_entStep_mono
        unfold entStep
        rw [hent, hfp]
        by_cases hmem : e.name ∈ acc <;> simp [hmem]
      · exact ih _ r hr' e hent hfp

theorem foldl_entStep_absorb (cls : Classifier) :
    ∀ (l : List (String × Summary)) (acc : List String),
      (∀ r ∈ l, ∀ e, cls.getEntity r.1 = some e →
        cls.isFirstParty r.1 = false → e.name ∈ acc) →
      l.foldl (entStep cls) acc = acc := by
  intro l
  induction l with
  | nil => intro acc _; rfl
  | cons r t ih =>
      intro acc h
      have hstep : entStep cls acc r = acc := by
        unfold entStep
        cases hent : cls.getEntity r.1 with
        | none => rfl
        | some e =>
            by_cases hfp : cls.isFirstParty r.1
            · simp [hfp]
            · have := h r (List.mem_cons_self _ _) e hent
                (by simpa using hfp)
              simp [hfp, this]
      simp only [List.foldl_cons, hstep]
      exact ih acc (fun r' hr' => h r' (List.mem_cons_of_mem _ hr'))

/-- The entity keys of the final nested state are the entities in order of
their first classified, non-first-party record. -/
theorem keys_pass2_eq_entityOrder (cls : Classifier)
    (byURL : List (String × Summary)) :
    (pass2 cls byURL).map Prod.fst = entityOrder cls byURL := by
  unfold pass2 pass1 entityOrder
  rw [keys_foldl_pass2, keys_foldl_pass1]
  simp only [List.map_nil]
  apply foldl_entStep_absorb
  intro r hr e hent hfp
  exact name_mem_foldl_entStep cls byURL [] r hr e hent hfp

theorem mapGet?_pass1Step_ent (cls : Classifier) (es : EntitySummaries)
    (r : String × Summary) (en : String) :
    mapGet? (pass1Step cls es r) en = pass1Ent cls en (mapGet? es en) r := by
  cases hent : cls.getEntity r.1 with
  | none => simp [pass1Step, pass1Ent, qualifiesEntity, hent]
  | some entity =>
      by_cases hfp : cls.isFirstParty r.1
      · simp [pass1Step, pass1Ent, qualifiesEntity, hent, hfp]
      · by_cases hen : entity.name = en
        · subst hen
          simp [pass1Step, pass1Ent, qualifiesEntity, pssUpdate, p1Update,
            hent, hfp, mapGet?_mapSet_self]
        · simp [pass1Step, pass1Ent, qualifiesEntity, hent, hfp, hen,
            mapGet?_mapSet_ne _ _ _ _ (fun hh => hen hh.symm)]

theorem mapGet?_pass2Step_ent (cls : Classifier) (es : EntitySummaries)
    (r : String × Summary) (en : String) :
    mapGet? (pass2Step cls es r) en = pass2Ent cls en (mapGet? es en) r := by
  cases hent : cls.getEntity r.1 with
  | none => simp [pass2Step, pass2Ent, qualifiesEntity, hent]
  | some entity =>
      by_cases hfp : cls.isFirstParty r.1
      · simp [pass2Step, pass2Ent, qualifiesEntity, hent, hfp]
      · by_cases hen : entity.name = en
        · subst hen
          simp [pass2Step, pass2Ent, qualifiesEntity, pss2Update,
            hent, hfp, mapGet?_mapSet_self]
        · simp [pass2Step, pass2Ent, qualifiesEntity, hent, hfp, hen,
            mapGet?_mapSet_ne _ _ _ _ (fun hh => hen hh.symm)]

theorem mapGet?_foldl_pass1_ent (cls : Classifier) (en : String) :
    ∀ (l : List (String × Summary)) (es : EntitySummaries),
      mapGet? (l.foldl (pass1Step cls) es) en =
        l.foldl (pass1Ent cls en) (mapGet? es en) := by
  intro l
  induction l with
  | nil => intro es; rfl
  | cons r t ih =>
      intro es
      simp only [List.foldl_cons]
      rw [ih, mapGet?_pass1Step_ent]

theorem mapGet?_foldl_pass2_ent (cls : Classifier) (en : String) :
    ∀ (l : List (String × Summary)) (es : EntitySummaries),
      mapGet? (l.foldl (pass2Step cls) es) en =
        l.foldl (pass2Ent cls en) (mapGet? es en) := by
  intro l
  induction l with
  | nil => intro es; rfl
  | cons r t ih =>
      intro es
      simp only [List.foldl_cons]
      rw [ih, mapGet?_pass2Step_ent]

theorem pkeys_pass1Ent (cls : Classifier) (en : String)
    (o : Option (List (String × FacadableProductSummary)))
    (r : String × Summary) :
    ((pass1Ent cls en o r).getD []).map Prod.fst =
      prodStep cls en ((o.getD []).map Prod.fst) r := by
  by_cases hq : qualifiesEntity cls en r.1
  · cases hprod : cls.getProduct r.1 with
    | none =>
        simp [pass1Ent, prodStep, facadableProductNameOf, pssUpdate, hq, hprod]
    | some product =>
        by_cases hfac : product.facades.isEmpty
        · simp [pass1Ent, prodStep, facadableProductNameOf, pssUpdate, hq,
            hprod, hfac]
        · simp [pass1Ent, prodStep, facadableProductNameOf, pssUpdate, hq,
            hprod, hfac, keys_mapSet]
  · simp [pass1Ent, prodStep, facadableProductNameOf, hq]

theorem pkeys_pass2Ent (cls : Classifier) (en : String)
    (o : Option (List (String × FacadableProductSummary)))
    (r : String × Summary) :
    ((pass2Ent cls en o r).getD []).map Prod.fst =
      (o.getD []).map Prod.fst := by
  by_cases hq : qualifiesEntity cls en r.1
  · cases hprod : cls.getProduct r.1 with
    | none => simp [pass2Ent, pss2Update, hq, hprod]
    | some product =>
        by_cases hfac : product.facades.isEmpty
        · simp [pass2Ent, pss2Update, hq, hprod, hfac]
        · simp [pass2Ent, pss2Update, hq, hprod, hfac]
  · simp [pass2Ent, hq]

theorem pkeys_foldl_pass1Ent (cls : Classifier) (en : String) :
    ∀ (l : List (String × Summary))
      (o : Option (List (String × FacadableProductSummary))),
      ((l.foldl (pass1Ent cls en) o).getD []).map Prod.fst =
        l.foldl (prodStep cls en) ((o.getD []).map Prod.fst) := by
  intro l
  induction l with
  | nil => intro o; rfl
  | cons r t ih =>
      intro o
      simp only [List.foldl_cons]
      rw [ih, pkeys_pass1Ent]

theorem pkeys_foldl_pass2Ent (cls : Classifier) (en : String) :
    ∀ (l : List (String × Summary))
      (o : Option (List (String × FacadableProductSummary))),
      ((l.foldl (pass2Ent cls en) o).getD []).map Prod.fst =
        (o.getD []).map Prod.fst := by
  intro l
  induction l with
  | nil => intro o; rfl
  | cons r t ih =>
      intro o
      simp only [List.foldl_cons]
      rw [ih, pkeys_pass2Ent]

/-- Within an entity, the product keys of the final nested state are the
entity's facadable products in order of their first own matched record. -/
theorem pkeys_pass2_eq_productOrder (cls : Classifier)
    (byURL : List (String × Summary)) (en : String)
    (pss : List (String × FacadableProductSummary))
    (h : mapGet? (pass2 cls byURL) en = some pss) :
    pss.map Prod.fst = productOrder cls en byURL := by
  have h2 : mapGet? (pass2 cls byURL) en =
      byURL.foldl (pass2Ent cls en) (mapGet? (pass1 cls byURL) en) := by
    unfold pass2
    rw [mapGet?_foldl_pass2_ent]
  have h1 : mapGet? (pass1 cls byURL) en =
      byURL.foldl (pass1Ent cls en) none := by
    unfold pass1
    rw [mapGet?_foldl_pass1_ent]
    rfl
  have e2 := pkeys_foldl_pass2Ent cls en byURL (mapGet? (pass1 cls byURL) en)
  rw [← h2, h] at e2
  have e1 := pkeys_foldl_pass1Ent cls en byURL none
  rw [← h1] at e1
  simp only [Option.getD_some] at e2
  rw [e2, e1]
  rfl

/-! ## Claim C7 -/

/-- C7 counterexample: with an incidental record of entity `A` first, then
`B`'s product `PB`, then `A`'s product `PA`, the set for `PB` is created first
in Pass 1 (`setCreationOrder = [PB, PA]`), but the output lists `PA` first
(the flattening follows entity first-appearance order, and entity `A` was keyed
by its incidental record before `PB`'s set existed). -/
theorem c7_counterexample :
    setCreationOrder exCls
      [("xA", ⟨500, 0, 0, .val 100, .val 101⟩),
       ("pB", ⟨3000, 0, 0, .val 110, .val 111⟩),
       ("pA", ⟨4000, 0, 0, .val 200, .val 201⟩)] = ["PB", "PA"] ∧
    (getFacadableProductSummaries exCls
      [("xA", ⟨500, 0, 0, .val 100, .val 101⟩),
       ("pB", ⟨3000, 0, 0, .val 110, .val 111⟩),
       ("pA", ⟨4000, 0, 0, .val 200, .val 201⟩)]).map
        (fun ps => ps.product.name) = ["PA", "PB"] := by
  constructor <;> decide

/-- C7 amended: the output contains exactly one Opportunity per AttributionSet,
but in the nested grouping order — entities in order of their first classified
non-first-party record, and within an entity products in set-creation order —
which can differ from the global set-creation order; the overall summary's
wastedBytes and wastedMs equal the sums of the listed products' transfer-size
and blocking-time totals. -/
theorem c7_amended_nested_order (cls : Classifier)
    (byURL : List (String × Summary)) :
    (pass2 cls byURL).map Prod.fst = entityOrder cls byURL ∧
    (∀ en pss, mapGet? (pass2 cls byURL) en = some pss →
        pss.map Prod.fst = productOrder cls en byURL) ∧
    ∃ r, audit cls byURL = Except.ok r ∧
      r.opportunityCount = (getFacadableProductSummaries cls byURL).length ∧
      r.oppProductNames =
        (getFacadableProductSummaries cls byURL).map
          (fun ps => ps.product.name) ∧
      r.wastedBytesOf = r.oppTransferSizes.sum ∧
      r.wastedMsOf = r.oppBlockingTimes.sum := by
  refine ⟨keys_pass2_eq_entityOrder cls byURL,
    fun en pss h => pkeys_pass2_eq_productOrder cls byURL en pss h, ?_⟩
  obtain ⟨res, hres, hlen, hnames, hts, hbt, haud⟩ := audit_success cls byURL
  by_cases he : res.isEmpty
  · have hnil : res = [] := List.isEmpty_iff.mp he
    have hsnil : getFacadableProductSummaries cls byURL = [] := by
      rw [← List.length_eq_zero, ← hlen, hnil]
      rfl
    simp only [he, if_true] at haud
    exact ⟨AuditResult.notApplicable, haud,
      by simp [hsnil, AuditResult.opportunityCount],
      by simp [hsnil, AuditResult.oppProductNames],
      by simp [AuditResult.wastedBytesOf, AuditResult.oppTransferSizes],
      by simp [AuditResult.wastedMsOf, AuditResult.oppBlockingTimes]⟩
  · have he' : res.isEmpty = false := by simpa using he
    simp only [he', Bool.false_eq_true, if_false] at haud
    refine ⟨_, haud, ?_, ?_, ?_, ?_⟩
    · simpa [AuditResult.opportunityCount] using hlen
    · simpa [AuditResult.oppProductNames] using hnames
    · simp [AuditResult.wastedBytesOf, AuditResult.oppTransferSizes]
    · simp [AuditResult.wastedMsOf, AuditResult.oppBlockingTimes]

/-- Witness for the amended C7 at the counterexample's input: the entity keys
are `[A, B]`, and entity `A`'s product map (looked up concretely) has key order
`productOrder = [PA]`. -/
theorem c7_amended_witness :
    (pass2 exCls
      [("xA", ⟨500, 0, 0, .val 100, .val 101⟩),
       ("pB", ⟨3000, 0, 0, .val 110, .val 111⟩),
       ("pA", ⟨4000, 0, 0, .val 200, .val 201⟩)]).map Prod.fst =
      entityOrder exCls
        [("xA", ⟨500, 0, 0, .val 100, .val 101⟩),
         ("pB", ⟨3000, 0, 0, .val 110, .val 111⟩),
         ("pA", ⟨4000, 0, 0, .val 200, .val 201⟩)] ∧
    ([("PA", FacadableProductSummary.mk exProdA (JsNum.val 201)
        [("pA", ⟨4000, 0, 0, .val 200, .val 201⟩)])].map Prod.fst =
      productOrder exCls "A"
        [("xA", ⟨500, 0, 0, .val 100, .val 101⟩),
         ("pB", ⟨3000, 0, 0, .val 110, .val 111⟩),
         ("pA", ⟨4000, 0, 0, .val 200, .val 201⟩)]) :=
  ⟨(c7_amended_nested_order exCls
      [("xA", ⟨500, 0, 0, .val 100, .val 101⟩),
       ("pB", ⟨3000, 0, 0, .val 110, .val 111⟩),
       ("pA", ⟨4000, 0, 0, .val 200, .val 201⟩)]).1,
   (c7_amended_nested_order exCls
      [("xA", ⟨500, 0, 0, .val 100, .val 101⟩),
       ("pB", ⟨3000, 0, 0, .val 110, .val 111⟩),
       ("pA", ⟨4000, 0, 0, .val 200, .val 201⟩)]).2.1 "A"
      [("PA", FacadableProductSummary.mk exProdA (JsNum.val 201)
        [("pA", ⟨4000, 0, 0, .val 200, .val 201⟩)])] (by decide)⟩
